import Mathlib

set_option maxRecDepth 40000

/-! Formal model of the flink-controller reconciliation core.

Shallow embedding of the Python sources:
* `src/core/reconciler.py` (data model: `JobType`, `JobState`,
  `ReconciliationAction`, `JobSpec`)
* `src/core/tracker.py` (`JobSpecTracker.calculate_spec_hash`, `has_changed`,
  `update_tracker` at cache level)
* `src/resilience/circuit_breaker.py` (`CircuitBreaker`)
* `src/core/reconciler_fixed.py` (`ProductionJobReconciler`)
* `src/core/scheduler.py` (`CronParser`, `ScheduledJobManager`)

Machine integers are modelled as `Nat`/`Int` with explicit `% 2 ^ 32` where the
SHA-256 rounds overflow; wall-clock instants are seconds since the Unix epoch
(`Nat`); Python floats that no claim depends on (running mean of durations) are
modelled as `Rat`.  Fallible code returns `Except`.
-/

/-- Job types from `src/core/reconciler.py`, `class JobType`. -/
inductive JobType where
  | streaming
  | batch
deriving DecidableEq

/-- The `.value` string of a `JobType` member. -/
def JobType.value : JobType → String
  | .streaming => "streaming"
  | .batch => "batch"

/-- Job states from `src/core/reconciler.py`, `class JobState`. -/
inductive JobState where
  | pending
  | running
  | stopped
  | failed
  | reconciling
  | unknown
deriving DecidableEq

/-- Reconciliation actions from `src/core/reconciler.py`,
`class ReconciliationAction`. -/
inductive ReconciliationAction where
  | deploy
  | update
  | stop
  | restart
  | no_action
deriving DecidableEq

/-- The `.value` string of a `ReconciliationAction` member. -/
def ReconciliationAction.value : ReconciliationAction → String
  | .deploy => "deploy"
  | .update => "update"
  | .stop => "stop"
  | .restart => "restart"
  | .no_action => "no_action"

/-- `JobSpec` from `src/core/reconciler.py` (pydantic model), fields in
declaration order.  `parallelism`, `max_restart_attempts`, `cpu_cores` are
Python ints, modelled as `Int`. -/
structure JobSpec where
  job_id : String
  job_type : JobType
  artifact_path : String
  artifact_signature : Option String := none
  parallelism : Int := 1
  checkpoint_interval : Option Int := none
  savepoint_path : Option String := none
  restart_strategy : String := "fixed-delay"
  max_restart_attempts : Int := 3
  memory : String := "1g"
  cpu_cores : Int := 1
  savepoint_trigger_interval : Option Int := none
  checkpoint_timeout : Option Int := none
deriving DecidableEq

/-- `is_valid_job_id` from `src/core/types.py`: nonempty, at most 255
characters, all matching `[a-zA-Z0-9_-]`. -/
def is_valid_job_id (value : String) : Bool :=
  decide (0 < value.length) && decide (value.length ≤ 255) &&
    value.toList.all (fun c => c.isAlphanum || c = '_' || c = '-')

/-! ### Association-list maps

Python `dict`s (`job_id -> hash` caches, statistics maps, the active
reconciliation map) are modelled as association lists with dict semantics:
update in place, preserve insertion order, unique keys. -/

/-- Dictionary lookup. -/
def Assoc.lookup {α : Type} : List (String × α) → String → Option α
  | [], _ => none
  | (k', v) :: rest, k => if k' = k then some v else Assoc.lookup rest k

/-- Dictionary assignment `d[k] = v`: replaces in place or appends. -/
def Assoc.insert {α : Type} : List (String × α) → String → α → List (String × α)
  | [], k, v => [(k, v)]
  | (k', v') :: rest, k, v =>
      if k' = k then (k', v) :: rest else (k', v') :: Assoc.insert rest k v

/-- Dictionary removal `d.pop(k, None)`: drops the entry for `k` if present. -/
def Assoc.erase {α : Type} : List (String × α) → String → List (String × α)
  | [], _ => []
  | (k', v') :: rest, k =>
      if k' = k then rest else (k', v') :: Assoc.erase rest k

/-- Counter read `d.get(k, 0)`. -/
def Assoc.count (m : List (String × Nat)) (k : String) : Nat :=
  (Assoc.lookup m k).getD 0

/-- Counter bump `d[k] = d.get(k, 0) + 1`. -/
def Assoc.bump (m : List (String × Nat)) (k : String) : List (String × Nat) :=
  Assoc.insert m k (Assoc.count m k + 1)


/-! ### List-based string utilities

Mirrors of the Python string operations the sources use (`str.split`,
`str.strip`, `str.lower`, `",".join`), written over character lists so they
evaluate by kernel reduction. -/

/-- Splitting accumulator: emit a field at each separator. -/
def splitCharsGo (p : Char → Bool) : List Char → List Char → List String
  | [], acc => [String.mk acc.reverse]
  | c :: t, acc =>
      if p c then String.mk acc.reverse :: splitCharsGo p t []
      else splitCharsGo p t (c :: acc)

/-- Split a string on separator characters (keeps empty fields, like
`str.split(sep)`). -/
def splitChars (p : Char → Bool) (s : String) : List String :=
  splitCharsGo p s.toList []

/-- Join with a separator (`sep.join(l)`). -/
def joinSep (sep : String) : List String → String
  | [] => ""
  | [x] => x
  | x :: rest => x ++ sep ++ joinSep sep rest

/-! ### Canonical spec hashing (`src/core/tracker.py`)

`calculate_spec_hash` serializes `spec.dict()` with excluded fields removed,
the `job_type` enum replaced by its `.value`, keys sorted, compact separators,
then hashes the UTF-8 bytes with SHA-256. -/

/-- A Python value as it occurs in `spec.dict()`: strings, ints, `None`, or the
`JobType` enum member (only ever under the `job_type` key). -/
inductive PyVal where
  | str (s : String)
  | int (i : Int)
  | none
  | enum (j : JobType)
deriving DecidableEq

/-- `True` iff the value is the raw enum member (Python
`hasattr(v, "value")` for this value universe). -/
def PyVal.isEnum : PyVal → Bool
  | .enum _ => true
  | _ => false

/-- Lift `Optional[str]`. -/
def PyVal.ofOptStr : Option String → PyVal
  | some s => .str s
  | Option.none => .none

/-- Lift `Optional[int]`. -/
def PyVal.ofOptInt : Option Int → PyVal
  | some i => .int i
  | Option.none => .none

/-- `spec.dict()`: the pydantic field dictionary in declaration order. -/
def JobSpec.dict (s : JobSpec) : List (String × PyVal) :=
  [ ("job_id", .str s.job_id),
    ("job_type", .enum s.job_type),
    ("artifact_path", .str s.artifact_path),
    ("artifact_signature", PyVal.ofOptStr s.artifact_signature),
    ("parallelism", .int s.parallelism),
    ("checkpoint_interval", PyVal.ofOptInt s.checkpoint_interval),
    ("savepoint_path", PyVal.ofOptStr s.savepoint_path),
    ("restart_strategy", .str s.restart_strategy),
    ("max_restart_attempts", .int s.max_restart_attempts),
    ("memory", .str s.memory),
    ("cpu_cores", .int s.cpu_cores),
    ("savepoint_trigger_interval", PyVal.ofOptInt s.savepoint_trigger_interval),
    ("checkpoint_timeout", PyVal.ofOptInt s.checkpoint_timeout) ]

/-- The tracker's exclusion filter: drops `created_at` and `updated_at`
(`exclude_fields` in `calculate_spec_hash`). -/
def excludeTrackerFields (d : List (String × PyVal)) : List (String × PyVal) :=
  d.filter (fun p => p.1 ≠ "created_at" && p.1 ≠ "updated_at")

/-- Enum normalization step of `calculate_spec_hash`: if the dict holds the raw
enum under `job_type`, replace it by its `.value` string. -/
def encodeJobTypeEnum (d : List (String × PyVal)) : List (String × PyVal) :=
  d.map (fun p =>
    if p.1 = "job_type" then
      match p.2 with
      | .enum j => (p.1, PyVal.str j.value)
      | v => (p.1, v)
    else p)

/-- Codepoint-lexicographic comparison of character lists: Python's string
ordering, as `sorted` uses on the dict keys. -/
def charListLe : List Char → List Char → Bool
  | [], _ => true
  | _ :: _, [] => false
  | a :: as, b :: bs =>
      if a < b then true
      else if b < a then false
      else charListLe as bs

/-- Key order used by `json.dumps(..., sort_keys=True)`: compare keys. -/
def keyLe (a b : String × PyVal) : Prop := charListLe a.1.toList b.1.toList = true

instance : DecidableRel keyLe := fun a b =>
  inferInstanceAs (Decidable (charListLe a.1.toList b.1.toList = true))

/-- `sorted(d.items())` as used by `json.dumps(..., sort_keys=True)`. -/
def sortPairs (d : List (String × PyVal)) : List (String × PyVal) :=
  List.insertionSort keyLe d

/-- One hex digit, lowercase (as Python's `%x` / json `\uXXXX`). -/
def hexDigit (n : Nat) : Char :=
  if n < 10 then Char.ofNat (48 + n) else Char.ofNat (87 + n)

/-- Four-digit lowercase hex, for json `\uXXXX` escapes. -/
def hex4 (n : Nat) : String :=
  String.mk [hexDigit (n / 4096 % 16), hexDigit (n / 256 % 16),
    hexDigit (n / 16 % 16), hexDigit (n % 16)]

/-- Escape one character the way `json.dumps` (default `ensure_ascii=True`)
does: named escapes for the common control characters, `\uXXXX` (with
surrogate pairs beyond the BMP) for anything outside printable ASCII. -/
def jsonEscapeChar (c : Char) : String :=
  if c = '"' then "\\\""
  else if c = '\\' then "\\\\"
  else if c = '\n' then "\\n"
  else if c = '\r' then "\\r"
  else if c = '\t' then "\\t"
  else if c.toNat = 8 then "\\b"
  else if c.toNat = 12 then "\\f"
  else if c.toNat < 32 || c.toNat > 126 then
    if c.toNat < 65536 then "\\u" ++ hex4 c.toNat
    else
      "\\u" ++ hex4 (55296 + (c.toNat - 65536) / 1024) ++
        "\\u" ++ hex4 (56320 + (c.toNat - 65536) % 1024)
  else String.mk [c]

/-- A JSON string literal for `s`. -/
def jsonQuote (s : String) : String :=
  "\"" ++ String.join (s.toList.map jsonEscapeChar) ++ "\""

/-- Serialize one value as `json.dumps` does (the enum case is unreachable in
the hashing pipeline: `json.dumps` would raise `TypeError` on a raw enum, and
`encodeJobTypeEnum` has removed the only enum by then). -/
def PyVal.dumps : PyVal → String
  | .str s => jsonQuote s
  | .int i => toString i
  | .none => "null"
  | .enum j => jsonQuote j.value

/-- `json.dumps(d, sort_keys=True, separators=(",", ":"))` for an
already-sorted item list. -/
def dumpsSorted (d : List (String × PyVal)) : String :=
  "\x7b" ++
    joinSep "," (d.map (fun p => jsonQuote p.1 ++ ":" ++ PyVal.dumps p.2)) ++
  "\x7d"

/-! ### SHA-256 over byte lists (`hashlib.sha256(...).hexdigest()`)

Bytes are `Nat < 256`, 32-bit words are `Nat` with explicit reduction
`% 2 ^ 32`. -/

/-- Reduce to a 32-bit word. -/
def wordMask (x : Nat) : Nat := x % 4294967296

/-- 32-bit right rotation. -/
def rotr (n x : Nat) : Nat := wordMask (x / 2 ^ n + x % 2 ^ n * 2 ^ (32 - n))

/-- Logical right shift. -/
def shrW (n x : Nat) : Nat := x / 2 ^ n

/-- 32-bit complement. -/
def notWord (x : Nat) : Nat := 4294967295 - wordMask x

/-- SHA-256 round constants (FIPS 180-4 §4.2.2, written in decimal). -/
def sha256K : List Nat :=
  [1116352408, 1899447441, 3049323471, 3921009573,
   961987163, 1508970993, 2453635748, 2870763221,
   3624381080, 310598401, 607225278, 1426881987,
   1925078388, 2162078206, 2614888103, 3248222580,
   3835390401, 4022224774, 264347078, 604807628,
   770255983, 1249150122, 1555081692, 1996064986,
   2554220882, 2821834349, 2952996808, 3210313671,
   3336571891, 3584528711, 113926993, 338241895,
   666307205, 773529912, 1294757372, 1396182291,
   1695183700, 1986661051, 2177026350, 2456956037,
   2730485921, 2820302411, 3259730800, 3345764771,
   3516065817, 3600352804, 4094571909, 275423344,
   430227734, 506948616, 659060556, 883997877,
   958139571, 1322822218, 1537002063, 1747873779,
   1955562222, 2024104815, 2227730452, 2361852424,
   2428436474, 2756734187, 3204031479, 3329325298]

/-- Working state of the compression function. -/
structure SHA256State where
  a : Nat
  b : Nat
  c : Nat
  d : Nat
  e : Nat
  f : Nat
  g : Nat
  h : Nat
deriving DecidableEq

/-- SHA-256 initial hash value (FIPS 180-4 §5.3.3, written in decimal). -/
def sha256InitState : SHA256State :=
  ⟨1779033703, 3144134277, 1013904242, 2773480762,
   1359893119, 2600822924, 528734635, 1541459225⟩

/-- σ₀ message-schedule function. -/
def smallSigma0 (x : Nat) : Nat := rotr 7 x ^^^ rotr 18 x ^^^ shrW 3 x

/-- σ₁ message-schedule function. -/
def smallSigma1 (x : Nat) : Nat := rotr 17 x ^^^ rotr 19 x ^^^ shrW 10 x

/-- Σ₀ round function. -/
def bigSigma0 (x : Nat) : Nat := rotr 2 x ^^^ rotr 13 x ^^^ rotr 22 x

/-- Σ₁ round function. -/
def bigSigma1 (x : Nat) : Nat := rotr 6 x ^^^ rotr 11 x ^^^ rotr 25 x

/-- Choice function `Ch`. -/
def shaCh (x y z : Nat) : Nat := (x &&& y) ^^^ (notWord x &&& z)

/-- Majority function `Maj`. -/
def shaMaj (x y z : Nat) : Nat := (x &&& y) ^^^ (x &&& z) ^^^ (y &&& z)

/-- Extend the 16 message words to 64 (`n` words still to append). -/
def shaExtend : Nat → List Nat → List Nat
  | 0, w => w
  | n + 1, w =>
      let i := w.length
      let nw := wordMask (w.getD (i - 16) 0 + smallSigma0 (w.getD (i - 15) 0) +
        w.getD (i - 7) 0 + smallSigma1 (w.getD (i - 2) 0))
      shaExtend n (w ++ [nw])

/-- One compression round. -/
def shaRound (st : SHA256State) (kw : Nat × Nat) : SHA256State :=
  let t1 := wordMask (st.h + bigSigma1 st.e + shaCh st.e st.f st.g + kw.1 + kw.2)
  let t2 := wordMask (bigSigma0 st.a + shaMaj st.a st.b st.c)
  { a := wordMask (t1 + t2), b := st.a, c := st.b, d := st.c,
    e := wordMask (st.d + t1), f := st.e, g := st.f, h := st.g }

/-- Compress one 64-byte block into the running hash value. -/
def shaCompressBlock (hv : SHA256State) (block : List Nat) : SHA256State :=
  let w16 := (block.toChunks 4).map (fun b =>
    b.getD 0 0 * 16777216 + b.getD 1 0 * 65536 + b.getD 2 0 * 256 + b.getD 3 0)
  let w := shaExtend 48 w16
  let st := (sha256K.zip w).foldl shaRound hv
  { a := wordMask (hv.a + st.a), b := wordMask (hv.b + st.b),
    c := wordMask (hv.c + st.c), d := wordMask (hv.d + st.d),
    e := wordMask (hv.e + st.e), f := wordMask (hv.f + st.f),
    g := wordMask (hv.g + st.g), h := wordMask (hv.h + st.h) }

/-- SHA-256 padding: `0x80`, zeros to 56 mod 64, 8-byte big-endian bit length. -/
def sha256Pad (msg : List Nat) : List Nat :=
  let len := msg.length
  let padZeros := (64 + 56 - (len + 1) % 64) % 64
  let bitLen := len * 8
  msg ++ [128] ++ List.replicate padZeros 0 ++
    (List.range 8).map (fun i => bitLen / 2 ^ (8 * (7 - i)) % 256)

/-- Eight lowercase hex digits of a 32-bit word. -/
def wordToHex8 (w : Nat) : String :=
  String.mk ((List.range 8).map (fun i => hexDigit (w / 16 ^ (7 - i) % 16)))

/-- `hashlib.sha256(msg).hexdigest()`. -/
def sha256Hex (msg : List Nat) : String :=
  let fin := ((sha256Pad msg).toChunks 64).foldl shaCompressBlock sha256InitState
  String.join ([fin.a, fin.b, fin.c, fin.d, fin.e, fin.f, fin.g, fin.h].map wordToHex8)

/-- UTF-8 bytes of one character. -/
def utf8Bytes (c : Char) : List Nat :=
  let n := c.toNat
  if n < 128 then [n]
  else if n < 2048 then [192 + n / 64, 128 + n % 64]
  else if n < 65536 then [224 + n / 4096, 128 + n / 64 % 64, 128 + n % 64]
  else [240 + n / 262144, 128 + n / 4096 % 64, 128 + n / 64 % 64, 128 + n % 64]

/-- `s.encode("utf-8")`. -/
def utf8Encode (s : String) : List Nat := (s.toList.map utf8Bytes).flatten

/-! ### Tracker operations (`JobSpecTracker`, cache level) -/

/-- The hashing pipeline of `calculate_spec_hash` on a field dictionary:
exclude, normalize the enum, then `json.dumps(..., sort_keys=True,
separators=(",", ":"))` and SHA-256 over the UTF-8 bytes. -/
def hashSpecDict (d : List (String × PyVal)) : String :=
  sha256Hex (utf8Encode (dumpsSorted (sortPairs (encodeJobTypeEnum (excludeTrackerFields d)))))

/-- `JobSpecTracker.calculate_spec_hash`. -/
def calculate_spec_hash (spec : JobSpec) : String :=
  hashSpecDict spec.dict

/-- The tracker's in-memory cache `_tracked_specs : job_id -> spec_hash`. -/
abbrev TrackerCache := List (String × String)

/-- `JobSpecTracker.has_changed`: true iff no hash is recorded for `job_id` or
the recorded hash differs from the current one. -/
def tracker_has_changed (cache : TrackerCache) (job_id : String) (spec : JobSpec) : Bool :=
  Assoc.lookup cache job_id ≠ some (calculate_spec_hash spec)

/-- `JobSpecTracker.update_tracker` at cache level: upsert the current hash. -/
def tracker_update (cache : TrackerCache) (job_id : String) (spec : JobSpec) : TrackerCache :=
  Assoc.insert cache job_id (calculate_spec_hash spec)

/-! ### Circuit breaker (`src/resilience/circuit_breaker.py`) -/

/-- `CircuitState`. -/
inductive CircuitState where
  | CLOSED
  | OPEN
  | HALF_OPEN
deriving DecidableEq

/-- `CircuitBreaker` state.  `expected_exception` is modelled by classifying
each wrapped call's outcome (below); `time.time()` instants are `Nat`
seconds. -/
structure CircuitBreaker where
  failure_threshold : Nat := 5
  recovery_timeout : Nat := 60
  state : CircuitState := .CLOSED
  failure_count : Nat := 0
  last_failure_time : Option Nat := none
deriving DecidableEq

/-- Outcome of the wrapped callable: returns, raises an exception matching
`expected_exception`, or raises one outside the configured fault set. -/
inductive FnOutcome where
  | success
  | expectedExn
  | unexpectedExn
deriving DecidableEq

/-- What `CircuitBreaker.call` does: returns the result, fails fast with
`CircuitBreakerError`, or re-raises the callable's exception. -/
inductive BreakerResult where
  | ok
  | breakerOpenError
  | raisedExpected
  | raisedUnexpected
deriving DecidableEq

/-- `_should_attempt_reset`. -/
def CircuitBreaker.shouldAttemptReset (b : CircuitBreaker) (now : Nat) : Bool :=
  match b.last_failure_time with
  | none => false
  | some t => decide (b.recovery_timeout ≤ now - t)

/-- `_on_success`: resets counters only when probing in `HALF_OPEN`. -/
def CircuitBreaker.onSuccess (b : CircuitBreaker) : CircuitBreaker :=
  if b.state = .HALF_OPEN then
    { b with state := .CLOSED, failure_count := 0, last_failure_time := none }
  else b

/-- `_on_failure`: count the failure, stamp the time, open on threshold. -/
def CircuitBreaker.onFailure (b : CircuitBreaker) (now : Nat) : CircuitBreaker :=
  let b := { b with failure_count := b.failure_count + 1, last_failure_time := some now }
  if b.failure_threshold ≤ b.failure_count then { b with state := .OPEN } else b

/-- Execution phase of `call` after the open-state gate. -/
def CircuitBreaker.exec (b : CircuitBreaker) (now : Nat) (fn : FnOutcome) :
    BreakerResult × CircuitBreaker :=
  match fn with
  | .success => (.ok, b.onSuccess)
  | .expectedExn => (.raisedExpected, b.onFailure now)
  | .unexpectedExn => (.raisedUnexpected, b)

/-- `CircuitBreaker.call`. -/
def CircuitBreaker.call (b : CircuitBreaker) (now : Nat) (fn : FnOutcome) :
    BreakerResult × CircuitBreaker :=
  if b.state = .OPEN then
    if b.shouldAttemptReset now then CircuitBreaker.exec { b with state := .HALF_OPEN } now fn
    else (.breakerOpenError, b)
  else CircuitBreaker.exec b now fn

/-- The `state` property: lazily auto-transitions `OPEN → HALF_OPEN` once the
recovery timeout has elapsed (it mutates the breaker). -/
def CircuitBreaker.stateProp (b : CircuitBreaker) (now : Nat) :
    CircuitState × CircuitBreaker :=
  if b.state = .OPEN ∧ b.shouldAttemptReset now then
    (.HALF_OPEN, { b with state := .HALF_OPEN })
  else (b.state, b)

/-- The `is_open` property (reads `state`, hence may auto-transition). -/
def CircuitBreaker.is_open (b : CircuitBreaker) (now : Nat) : Bool × CircuitBreaker :=
  let (st, b') := b.stateProp now
  (decide (st = .OPEN), b')

/-- `CircuitBreaker.reset`. -/
def CircuitBreaker.reset (b : CircuitBreaker) : CircuitBreaker :=
  { b with state := .CLOSED, failure_count := 0, last_failure_time := none }

/-! ### Reconciliation engine (`src/core/reconciler_fixed.py`)

The engine is embedded as an explicit-state function.  The concurrent batch of
`reconcile_all` is modelled by the sequential schedule (one admissible
interleaving; each task suspends only at client calls and the per-task
properties proved below are schedule-independent).  `asyncio` cancellation and
real wall-clock durations are outside the shallow embedding; the duration that
`time.perf_counter` would yield for a call is an environment parameter. -/

/-- `ReconcilerConfig` (the two fields the control flow reads). -/
structure ReconcilerConfig where
  max_concurrent_reconciliations : Nat := 10
  reconciliation_timeout : Nat := 300
deriving DecidableEq

/-- `ReconciliationResult` (pydantic model; the `reconciled_at` wall-clock
string is not modelled, no claim mentions it). -/
structure ReconciliationResult where
  job_id : String
  action_taken : ReconciliationAction
  success : Bool
  error_code : Option String := none
  error_message : Option String := none
  duration_ms : Nat := 0
  context : List (String × String) := []
deriving DecidableEq

/-- Pydantic validation of `ReconciliationResult(...)`: `job_id` has
`min_length=1` (and `duration_ms ≥ 0` holds by the `Nat` type).  Construction
raises `ValidationError` on an empty `job_id`. -/
def mkReconciliationResult (job_id : String) (action : ReconciliationAction)
    (success : Bool) (error_code error_message : Option String)
    (duration_ms : Nat) (context : List (String × String)) :
    Except String ReconciliationResult :=
  if job_id.length = 0 then
    .error "ValidationError: job_id must have at least 1 character"
  else
    .ok { job_id := job_id, action_taken := action, success := success,
          error_code := error_code, error_message := error_message,
          duration_ms := duration_ms, context := context }

/-- `ReconciliationStatistics` (the running mean is a Python float, modelled
as `Rat`). -/
structure ReconciliationStatistics where
  total_jobs : Nat := 0
  successful_reconciliations : Nat := 0
  failed_reconciliations : Nat := 0
  concurrent_reconciliation_attempts : Nat := 0
  average_duration_ms : Rat := 0
  actions_taken : List (String × Nat) := []
  error_codes : List (String × Nat) := []
deriving DecidableEq

/-- Mutable state of a `ProductionJobReconciler` instance together with the
caches of its optional collaborators: the change tracker's
`_tracked_specs` cache, the state store's map, and the circuit breaker. -/
structure EngineState where
  active_reconciliations : List (String × Nat) := []
  statistics : ReconciliationStatistics := {}
  tracker : Option TrackerCache := none
  state_store : Option (List (String × JobState)) := none
  breaker : Option CircuitBreaker := none
deriving DecidableEq

instance {e a : Type} [DecidableEq e] [DecidableEq a] : DecidableEq (Except e a)
  | .ok x, .ok y =>
      if h : x = y then .isTrue (by rw [h]) else .isFalse (by simp [h])
  | .ok _, .error _ => .isFalse (by simp)
  | .error _, .ok _ => .isFalse (by simp)
  | .error x, .error y =>
      if h : x = y then .isTrue (by rw [h]) else .isFalse (by simp [h])

/-- Behaviour of the Flink client for one reconciliation: each call either
returns (`ok`) or raises with a message.  `job_details` carries the `state`
field of the returned job-details dict. -/
structure ClientEnv where
  cluster_info : Except String Unit := .ok ()
  job_details : Except String String := .error "Job not found"
  deploy_result : Except String String := .ok "flink-job-1"
  stop_result : Except String Unit := .ok ()
  savepoint_result : Except String String := .ok "savepoint-request-1"
deriving DecidableEq

/-- Trace of calls the engine makes on the Flink client. -/
inductive ClientCall where
  | getClusterInfo
  | getJobDetails (job_id : String)
  | deployJob (jar_path : String)
  | stopJob (job_id : String)
  | triggerSavepoint (job_id : String) (savepoint_dir : String)
deriving DecidableEq

/-- Exceptions that travel inside `reconcile_job`'s body and are mapped to
failed results by its handlers (message text is abbreviated to the parts the
handlers use). -/
inductive EngineExn where
  | circuitBreakerOpen (msg : String)
  | flinkCluster (msg : String)
  | reconciliation (msg : String)
deriving DecidableEq

/-- `str(e)` for the modelled exceptions. -/
def EngineExn.str : EngineExn → String
  | .circuitBreakerOpen m => "[CIRCUIT_BREAKER_OPEN] - " ++ m
  | .flinkCluster m => "[FLINK_CLUSTER_UNAVAILABLE] - " ++ m
  | .reconciliation m => "[RECONCILIATION_FAILED] - " ++ m

/-- The error code the outer handlers record for each exception. -/
def EngineExn.code : EngineExn → String
  | .circuitBreakerOpen _ => "CIRCUIT_BREAKER_OPEN"
  | .flinkCluster _ => "FLINK_CLUSTER_UNAVAILABLE"
  | .reconciliation _ => "RECONCILIATION_FAILED"

/-- An exception escaping the per-job task itself (uncaught by
`reconcile_job`): the `ValueError` of `safe_cast_job_id` raised before its
`try` block. -/
inductive TaskExn where
  | valueError (msg : String)
deriving DecidableEq

/-- `str(e)` of a task-level exception. -/
def TaskExn.str : TaskExn → String
  | .valueError m => m

/-- Substring test (Python's `in` on strings), over character lists. -/
def containsSub (needle : List Char) : List Char → Bool
  | [] => needle.isEmpty
  | c :: t => needle.isPrefixOf (c :: t) || containsSub needle t

/-- `"not found" in str(e).lower()`. -/
def mentionsNotFound (msg : String) : Bool :=
  containsSub ("not found".toList) (msg.toList.map Char.toLower)

/-- `_convert_flink_state_to_job_state`. -/
def convert_flink_state_to_job_state (flink_state : String) : JobState :=
  if flink_state = "RUNNING" then .running
  else if flink_state = "FINISHED" then .stopped
  else if flink_state = "CANCELED" then .stopped
  else if flink_state = "CANCELLED" then .stopped
  else if flink_state = "FAILED" then .failed
  else if flink_state = "RESTARTING" then .reconciling
  else .unknown

/-- `_determine_reconciliation_action` (the tracker argument is the cache of
the optional `_change_tracker`). -/
def determine_reconciliation_action (tracker : Option TrackerCache)
    (spec : JobSpec) (current_status : Option JobState) : ReconciliationAction :=
  if current_status = none ∨ current_status = some .unknown then .deploy
  else if current_status = some .failed then .restart
  else if current_status = some .running then
    match tracker with
    | some cache =>
        if tracker_has_changed cache spec.job_id spec then
          if spec.job_type = .streaming then .update else .stop
        else .no_action
    | none => .no_action
  else if current_status = some .stopped then .deploy
  else .no_action

/-- The `except Exception` clause inside `_get_job_status_protected`: consult
the breaker's `is_open` property, then the "not found" heuristic, else wrap
into `FlinkClusterError`.  Returns the value or exception, the breaker, and
the client-call trace accumulated so far. -/
def statusExnPath (now : Nat) (breaker : Option CircuitBreaker) (m : String)
    (tr : List ClientCall) :
    Except EngineExn (Option JobState) × Option CircuitBreaker × List ClientCall :=
  match breaker with
  | some b0 =>
      let p := b0.is_open now
      if p.1 then (.error (.circuitBreakerOpen m), some p.2, tr)
      else if mentionsNotFound m then (.ok none, some p.2, tr)
      else (.error (.flinkCluster ("Failed to get job status: " ++ m)), some p.2, tr)
  | none =>
      if mentionsNotFound m then (.ok none, none, tr)
      else (.error (.flinkCluster ("Failed to get job status: " ++ m)), none, tr)

/-- `_get_job_status_protected` of `ProductionJobReconciler`.  With a breaker
present, `_call_with_circuit_breaker` passes a wrapper that only creates the
task, so the breaker always observes a successful call; the client's own
exception surfaces at the subsequent `await` and is handled by
`statusExnPath`.  If the breaker is open, `call` raises `CircuitBreakerError`
before any client call. -/
def getJobStatusProtected (env : ClientEnv) (now : Nat)
    (breaker : Option CircuitBreaker) (job_id_str : String) :
    Except EngineExn (Option JobState) × Option CircuitBreaker × List ClientCall :=
  match breaker with
  | some b =>
      match b.call now .success with
      | (.breakerOpenError, b1) => statusExnPath now (some b1) "Circuit breaker is OPEN" []
      | (_, b1) =>
          match env.cluster_info with
          | .error m => statusExnPath now (some b1) m [.getClusterInfo]
          | .ok _ =>
              match b1.call now .success with
              | (.breakerOpenError, b2) =>
                  statusExnPath now (some b2) "Circuit breaker is OPEN" [.getClusterInfo]
              | (_, b2) =>
                  match env.job_details with
                  | .error m => statusExnPath now (some b2) m [.getClusterInfo, .getJobDetails job_id_str]
                  | .ok st =>
                      (.ok (some (convert_flink_state_to_job_state st)), some b2,
                       [.getClusterInfo, .getJobDetails job_id_str])
  | none =>
      match env.cluster_info with
      | .error m => statusExnPath now none m [.getClusterInfo]
      | .ok _ =>
          match env.job_details with
          | .error m => statusExnPath now none m [.getClusterInfo, .getJobDetails job_id_str]
          | .ok st =>
              (.ok (some (convert_flink_state_to_job_state st)), none,
               [.getClusterInfo, .getJobDetails job_id_str])

/-- The client interactions of one non-`no_action` action (`_deploy_job`,
`_update_streaming_job`, `_stop_job`, `_restart_job`): did the call sequence
succeed, and which calls were made. -/
def actionClientStep (env : ClientEnv) (spec : JobSpec) :
    ReconciliationAction → Except Unit Unit × List ClientCall
  | .no_action => (.ok (), [])
  | .deploy =>
      match env.deploy_result with
      | .ok _ => (.ok (), [.deployJob spec.artifact_path])
      | .error _ => (.error (), [.deployJob spec.artifact_path])
  | .update =>
      match env.savepoint_result with
      | .error _ => (.error (), [.triggerSavepoint spec.job_id ("/savepoints/" ++ spec.job_id)])
      | .ok _ =>
          match env.stop_result with
          | .error _ =>
              (.error (), [.triggerSavepoint spec.job_id ("/savepoints/" ++ spec.job_id),
                           .stopJob spec.job_id])
          | .ok _ =>
              match env.deploy_result with
              | .error _ =>
                  (.error (), [.triggerSavepoint spec.job_id ("/savepoints/" ++ spec.job_id),
                               .stopJob spec.job_id, .deployJob spec.artifact_path])
              | .ok _ =>
                  (.ok (), [.triggerSavepoint spec.job_id ("/savepoints/" ++ spec.job_id),
                            .stopJob spec.job_id, .deployJob spec.artifact_path])
  | .stop =>
      match env.stop_result with
      | .ok _ => (.ok (), [.stopJob spec.job_id])
      | .error _ => (.error (), [.stopJob spec.job_id])
  | .restart =>
      match env.deploy_result with
      | .ok _ => (.ok (), [.deployJob spec.artifact_path])
      | .error _ => (.error (), [.deployJob spec.artifact_path])

/-- `_execute_reconciliation_action`: `no_action` returns early; every other
action performs its client calls and, on success, saves `running` to the state
store and upserts the change tracker; any exception is wrapped into
`ReconciliationError(f"Failed to execute {action.value}", ...)` whose default
code is `RECONCILIATION_FAILED`. -/
def executeReconciliationAction (env : ClientEnv) (spec : JobSpec)
    (action : ReconciliationAction) (tracker : Option TrackerCache)
    (store : Option (List (String × JobState))) (dur : Nat) :
    Except EngineExn ReconciliationResult × Option TrackerCache ×
      Option (List (String × JobState)) × List ClientCall :=
  if action = .no_action then
    (.ok { job_id := spec.job_id, action_taken := action, success := true,
           duration_ms := dur }, tracker, store, [])
  else
    let step := actionClientStep env spec action
    match step.1 with
    | .error _ =>
        (.error (.reconciliation ("Failed to execute " ++ action.value)),
         tracker, store, step.2)
    | .ok _ =>
        let store1 := store.map (fun m => Assoc.insert m spec.job_id JobState.running)
        let tracker1 := tracker.map (fun c => tracker_update c spec.job_id spec)
        (.ok { job_id := spec.job_id, action_taken := action, success := true,
               duration_ms := dur }, tracker1, store1, step.2)

/-- `_check_concurrent_reconciliation`: raise (`.error started_at`) if an
entry younger than the timeout exists, clear a stale entry, else pass. -/
def check_concurrent_reconciliation (cfg : ReconcilerConfig)
    (active : List (String × Nat)) (job_id : String) (now : Nat) :
    Except Nat (List (String × Nat)) :=
  match Assoc.lookup active job_id with
  | none => .ok active
  | some started_at =>
      if cfg.reconciliation_timeout < now - started_at then
        .ok (Assoc.erase active job_id)
      else .error started_at

/-- The failed `ReconciliationResult` the outer exception handlers of
`reconcile_job` build from a body exception. -/
def resultOfBodyExn (spec : JobSpec) (e : EngineExn) (dur : Nat) : ReconciliationResult :=
  { job_id := spec.job_id, action_taken := .no_action, success := false,
    error_code := some e.code, error_message := some e.str, duration_ms := dur }

/-- `ProductionJobReconciler.reconcile_job`.  `now` is the wall clock during
the call, `dur` the duration `perf_counter` measures for it.  The
`safe_cast_job_id` `ValueError` is raised before the `try` and escapes the
task; everything inside the body is mapped to a failed result, and the inner
`finally` always removes the job from `_active_reconciliations` first. -/
def reconcileJob (cfg : ReconcilerConfig) (env : ClientEnv) (now dur : Nat)
    (spec : JobSpec) (s : EngineState) :
    Except TaskExn ReconciliationResult × EngineState × List ClientCall :=
  if is_valid_job_id spec.job_id then
    match check_concurrent_reconciliation cfg s.active_reconciliations spec.job_id now with
    | .error started_at =>
        (.ok { job_id := spec.job_id, action_taken := .no_action, success := false,
               error_code := some "CONCURRENT_RECONCILIATION",
               error_message := some ("Job is already being reconciled since " ++ toString started_at),
               duration_ms := dur },
         { s with statistics :=
            { s.statistics with concurrent_reconciliation_attempts :=
                s.statistics.concurrent_reconciliation_attempts + 1 } },
         [])
    | .ok active1 =>
        let active2 := Assoc.insert active1 spec.job_id now
        let st := getJobStatusProtected env now s.breaker spec.job_id
        match st.1 with
        | .error e =>
            (.ok (resultOfBodyExn spec e dur),
             { s with active_reconciliations := Assoc.erase active2 spec.job_id,
                      breaker := st.2.1 }, st.2.2)
        | .ok current_status =>
            let action := determine_reconciliation_action s.tracker spec current_status
            let ex := executeReconciliationAction env spec action s.tracker s.state_store dur
            match ex.1 with
            | .error e =>
                (.ok (resultOfBodyExn spec e dur),
                 { s with active_reconciliations := Assoc.erase active2 spec.job_id,
                          breaker := st.2.1, tracker := ex.2.1,
                          state_store := ex.2.2.1 }, st.2.2 ++ ex.2.2.2)
            | .ok result =>
                (.ok result,
                 { s with active_reconciliations := Assoc.erase active2 spec.job_id,
                          breaker := st.2.1, tracker := ex.2.1,
                          state_store := ex.2.2.1 }, st.2.2 ++ ex.2.2.2)
  else (.error (.valueError ("Invalid job ID: " ++ spec.job_id)), s, [])

/-- The batch of per-spec tasks of `reconcile_all` (`asyncio.gather` with
`return_exceptions=True`), in the sequential schedule; `envf i` is the client
behaviour seen by the `i`-th task. -/
def runTasks (cfg : ReconcilerConfig) (envf : Nat → ClientEnv) (now dur : Nat) :
    List JobSpec → Nat → EngineState →
    List (Except TaskExn ReconciliationResult) × EngineState × List ClientCall
  | [], _, s => ([], s, [])
  | spec :: rest, i, s =>
      let r := reconcileJob cfg (envf i) now dur spec s
      let rs := runTasks cfg envf now dur rest (i + 1) r.2.1
      (r.1 :: rs.1, rs.2.1, r.2.2 ++ rs.2.2)

/-- The result-processing loop of `reconcile_all`: exceptions become failed
results built through the validating constructor (whose `ValidationError`
aborts the loop, propagating out of `reconcile_all`). -/
def processResults : List (JobSpec × Except TaskExn ReconciliationResult) →
    Except String (List ReconciliationResult)
  | [] => .ok []
  | (spec, out) :: rest =>
      match out with
      | .ok r =>
          match processResults rest with
          | .ok rs => .ok (r :: rs)
          | .error m => .error m
      | .error e =>
          match mkReconciliationResult spec.job_id .no_action false
              (some "RECONCILIATION_FAILED") (some e.str) 0 [] with
          | .ok conv =>
              match processResults rest with
              | .ok rs => .ok (conv :: rs)
              | .error m => .error m
          | .error m => .error m

/-- `_update_statistics`. -/
def update_statistics (stats : ReconciliationStatistics)
    (results : List ReconciliationResult) : ReconciliationStatistics :=
  let successful := (results.filter (fun r => r.success)).length
  let failed := results.length - successful
  let st1 := { stats with
    successful_reconciliations := stats.successful_reconciliations + successful,
    failed_reconciliations := stats.failed_reconciliations + failed }
  let durations := (results.filter (fun r => 0 < r.duration_ms)).map (fun r => r.duration_ms)
  let st2 :=
    if durations.isEmpty then st1
    else
      let total_duration := durations.sum
      let total_ops := st1.successful_reconciliations + st1.failed_reconciliations
      if 0 < total_ops then
        { st1 with average_duration_ms := (total_duration : Rat) / (total_ops : Rat) }
      else st1
  let st3 := results.foldl
    (fun st r => { st with actions_taken := Assoc.bump st.actions_taken r.action_taken.value }) st2
  results.foldl
    (fun st r =>
      match r.error_code with
      | some c => { st with error_codes := Assoc.bump st.error_codes c }
      | none => st) st3

/-- Environment of one `reconcile_all` call: client behaviour per task index,
the wall clock, and the per-call duration `perf_counter` measures. -/
structure BatchEnv where
  envf : Nat → ClientEnv
  now : Nat
  dur : Nat

/-- `ProductionJobReconciler.reconcile_all`: early return on an empty batch,
otherwise set `total_jobs`, fan out, convert exceptions, update statistics. -/
def reconcileAll (cfg : ReconcilerConfig) (be : BatchEnv)
    (job_specs : List JobSpec) (s : EngineState) :
    Except String (List ReconciliationResult) × EngineState × List ClientCall :=
  if job_specs.isEmpty then (.ok [], s, [])
  else
    let s1 := { s with statistics := { s.statistics with total_jobs := job_specs.length } }
    let run := runTasks cfg be.envf be.now be.dur job_specs 0 s1
    match processResults (job_specs.zip run.1) with
    | .error m => (.error m, run.2.1, run.2.2)
    | .ok processed =>
        ( .ok processed,
          { run.2.1 with statistics := update_statistics (run.2.1).statistics processed },
          run.2.2 )

/-- A sequence of `reconcile_all` calls on one engine instance. -/
def runBatches (cfg : ReconcilerConfig) :
    List (BatchEnv × List JobSpec) → EngineState → EngineState
  | [], s => s
  | (be, specs) :: rest, s => runBatches cfg rest (reconcileAll cfg be specs s).2.1

/-! ### Cron engine and scheduled-job manager (`src/core/scheduler.py`)

Instants are UTC seconds since the Unix epoch.  The Gregorian calendar fields
that `datetime` exposes (`day`, `month`, `weekday()`) are computed from the
day number with the standard civil-from-days algorithm. -/

/-- Civil date `(year, month, day)` of a day count since 1970-01-01. -/
def civilFromDays (z0 : Nat) : Nat × Nat × Nat :=
  let z := z0 + 719468
  let era := z / 146097
  let doe := z % 146097
  let yoe := (doe - doe / 1460 + doe / 36524 - doe / 146096) / 365
  let y := yoe + era * 400
  let doy := doe - (365 * yoe + yoe / 4 - yoe / 100)
  let mp := (5 * doy + 2) / 153
  let d := doy - (153 * mp + 2) / 5 + 1
  let m := if mp < 10 then mp + 3 else mp - 9
  (if m ≤ 2 then y + 1 else y, m, d)

/-- `dt.minute`. -/
def instantMinute (t : Nat) : Nat := t / 60 % 60

/-- `dt.hour`. -/
def instantHour (t : Nat) : Nat := t / 3600 % 24

/-- `dt.day`. -/
def instantDay (t : Nat) : Nat := (civilFromDays (t / 86400)).2.2

/-- `dt.month`. -/
def instantMonth (t : Nat) : Nat := (civilFromDays (t / 86400)).2.1

/-- `dt.weekday()`: Monday is `0`, Sunday is `6` (1970-01-01 was a Thursday,
weekday `3`). -/
def pythonWeekday (t : Nat) : Nat := (t / 86400 + 3) % 7

/-- Python `int(s)` restricted to the character set the cron pre-filter
admits: digits only (an empty string or any other character raises
`ValueError`). -/
def parseNatDigits (s : String) : Except String Nat :=
  if 0 < s.length && s.toList.all Char.isDigit then
    .ok (s.toList.foldl (fun acc c => acc * 10 + (c.toNat - 48)) 0)
  else .error ("invalid literal for int: " ++ s)

/-- Python `range(a, b + 1, step)` for `step ≥ 1`. -/
def rangeStep (a b step : Nat) : List Nat :=
  if b < a then [] else List.range' a ((b - a) / step + 1) step

/-- One comma-separated part of `parse_cron_field`. -/
def parseCronPart (minVal maxVal : Nat) (part : String) : Except String (List Nat) :=
  if part.toList.contains '/' then
    match splitChars (fun c => c = '/') part with
    | [range_part, stepStr] =>
        match parseNatDigits stepStr with
        | .error m => .error m
        | .ok step =>
            if step = 0 then .error ("Invalid step value: " ++ stepStr)
            else if range_part = "*" then .ok (rangeStep minVal maxVal step)
            else
              match (if range_part.toList.contains '-' then splitChars (fun c => c = '-') range_part
                     else [range_part, range_part]) with
              | [sStr, eStr] =>
                  match parseNatDigits sStr, parseNatDigits eStr with
                  | .ok a, .ok b =>
                      if minVal ≤ a && a ≤ maxVal && minVal ≤ b && b ≤ maxVal then
                        .ok (rangeStep a b step)
                      else .error "Values out of range"
                  | _, _ => .error "invalid literal for int"
              | _ => .error "cannot unpack"
    | _ => .error "cannot unpack"
  else if part.toList.contains '-' then
    match splitChars (fun c => c = '-') part with
    | [sStr, eStr] =>
        match parseNatDigits sStr, parseNatDigits eStr with
        | .ok a, .ok b =>
            if minVal ≤ a && a ≤ maxVal && minVal ≤ b && b ≤ maxVal then
              .ok (rangeStep a b 1)
            else .error "Values out of range"
        | _, _ => .error "invalid literal for int"
    | _ => .error "cannot unpack"
  else
    match parseNatDigits part with
    | .ok v =>
        if minVal ≤ v && v ≤ maxVal then .ok [v] else .error "Value out of range"
    | .error m => .error m

/-- Union over the comma-separated parts. -/
def parseCronParts (minVal maxVal : Nat) : List String → Except String (List Nat)
  | [] => .ok []
  | p :: rest =>
      match parseCronPart minVal maxVal p with
      | .error m => .error m
      | .ok vs =>
          match parseCronParts minVal maxVal rest with
          | .error m => .error m
          | .ok rs => .ok (vs ++ rs)

/-- `CronParser.parse_cron_field`: the set of allowed values of one field. -/
def parse_cron_field (field : String) (minVal maxVal : Nat) : Except String (List Nat) :=
  if field = "*" then .ok (rangeStep minVal maxVal 1)
  else parseCronParts minVal maxVal (splitChars (fun c => c = ',') field)

/-- ASCII whitespace, Python's `\s` on this input alphabet. -/
def isSpaceChar (c : Char) : Bool :=
  c = ' ' || c = '\t' || c = '\n' || c = '\r' || c = '\x0b' || c = '\x0c'

/-- `CRON_PATTERN.match`: nonempty and only `*`, digits, `-`, `,`, `/`,
whitespace. -/
def cronPatternOk (s : String) : Bool :=
  0 < s.length &&
    s.toList.all (fun c => c = '*' || c.isDigit || c = '-' || c = ',' || c = '/' || isSpaceChar c)

/-- `str.strip()` over the modelled whitespace set. -/
def trimChars (s : String) : String :=
  String.mk (((s.toList.dropWhile isSpaceChar).reverse.dropWhile isSpaceChar).reverse)

/-- `str.split()`: split on whitespace runs, dropping empty fields. -/
def splitFields (s : String) : List String :=
  (splitChars isSpaceChar s).filter (fun f => f ≠ "")

/-- `CronParser.is_valid_cron`. -/
def is_valid_cron (expression : String) : Bool :=
  let stripped := trimChars expression
  if ¬ cronPatternOk stripped then false
  else
    let fields := splitFields stripped
    if fields.length ≠ 5 then false
    else
      match parse_cron_field (fields.getD 0 "") 0 59,
            parse_cron_field (fields.getD 1 "") 0 23,
            parse_cron_field (fields.getD 2 "") 1 31,
            parse_cron_field (fields.getD 3 "") 1 12,
            parse_cron_field (fields.getD 4 "") 0 6 with
      | .ok _, .ok _, .ok _, .ok _, .ok _ => true
      | _, _, _, _, _ => false

/-- The membership test of the search loop in `get_next_execution`, including
the source's weekday conversion `current.weekday() + 1`. -/
def cronMatchAt (minutes hours days months weekdays : List Nat) (t : Nat) : Bool :=
  minutes.contains (instantMinute t) && hours.contains (instantHour t) &&
    days.contains (instantDay t) && months.contains (instantMonth t) &&
    weekdays.contains (pythonWeekday t + 1)

/-- The minute-by-minute search loop, `fuel` iterations left. -/
def cronSearch (minutes hours days months weekdays : List Nat) :
    Nat → Nat → Option Nat
  | 0, _ => none
  | fuel + 1, cur =>
      if cronMatchAt minutes hours days months weekdays cur then some cur
      else cronSearch minutes hours days months weekdays fuel (cur + 60)

/-- `CronParser.get_next_execution`: validate, parse the five fields, start
from the truncated minute plus one, scan at most `4 * 7 * 24 * 60` minutes. -/
def get_next_execution (cron_expr : String) (from_time : Nat) : Except String Nat :=
  if ¬ is_valid_cron cron_expr then
    .error ("Invalid cron expression: " ++ cron_expr)
  else
    let fields := splitFields (trimChars cron_expr)
    match parse_cron_field (fields.getD 0 "") 0 59,
          parse_cron_field (fields.getD 1 "") 0 23,
          parse_cron_field (fields.getD 2 "") 1 31,
          parse_cron_field (fields.getD 3 "") 1 12,
          parse_cron_field (fields.getD 4 "") 0 6 with
    | .ok minutes, .ok hours, .ok days, .ok months, .ok weekdays =>
        let start := from_time - from_time % 60 + 60
        match cronSearch minutes hours days months weekdays 40320 start with
        | some t => .ok t
        | none => .error ("Could not find next execution time for cron: " ++ cron_expr)
    | _, _, _, _, _ => .error ("Invalid cron expression: " ++ cron_expr)

/-- `ScheduleStatus`. -/
inductive ScheduleStatus where
  | pending
  | running
  | success
  | failed
  | disabled
  | expired
deriving DecidableEq

/-- `ScheduledJobSpec` (extends `JobSpec`; dates as epoch seconds). -/
structure ScheduledJobSpec extends JobSpec where
  cron_expression : String
  timezone : String := "UTC"
  max_executions : Option Int := none
  execution_timeout : Nat := 3600
  start_date : Option Nat := none
  end_date : Option Nat := none
  max_retries : Nat := 3
  retry_delay : Nat := 300
deriving DecidableEq

/-- `ExecutionRecord`. -/
structure ExecutionRecord where
  execution_id : String
  job_id : String
  scheduled_time : Nat
  actual_start_time : Option Nat := none
  end_time : Option Nat := none
  status : ScheduleStatus := .pending
  attempt_number : Nat := 1
  error_message : Option String := none
  duration_ms : Nat := 0
deriving DecidableEq

/-- Mutable state of a `ScheduledJobManager`. -/
structure ManagerState where
  scheduled_jobs : List (String × ScheduledJobSpec) := []
  job_schedules : List (String × ScheduleStatus) := []
  execution_history : List (String × List ExecutionRecord) := []
  active_executions : List (String × ExecutionRecord) := []
deriving DecidableEq

/-- `_execute_scheduled_job`.  `execOutcome` is what
`self._scheduler.execute_job(job_spec)` does (returns a Bool or raises);
`start_now`/`end_now` are the wall clock at entry and after the execution.
The history entry for `job_id` exists whenever the manager itself triggers
the execution (`add_scheduled_job` creates it); the `getD []` default covers
the otherwise-`KeyError` case. -/
def execute_scheduled_job (execOutcome : Except String Bool) (start_now end_now : Nat)
    (job_spec : ScheduledJobSpec) (scheduled_time : Nat) (ms : ManagerState) :
    ManagerState :=
  let job_id := job_spec.job_id
  let execution_id := job_id ++ "_" ++ toString scheduled_time
  let rec0 : ExecutionRecord :=
    { execution_id := execution_id, job_id := job_id,
      scheduled_time := scheduled_time, actual_start_time := some start_now }
  let ms1 := { ms with
    active_executions := Assoc.insert ms.active_executions execution_id rec0,
    job_schedules := Assoc.insert ms.job_schedules job_id .running }
  let rec1 :=
    match execOutcome with
    | .ok success =>
        { rec0 with status := if success then .success else .failed,
                    end_time := some end_now,
                    duration_ms := (end_now - start_now) * 1000 }
    | .error e =>
        { rec0 with status := .failed, error_message := some e,
                    end_time := some end_now }
  let hist := (Assoc.lookup ms1.execution_history job_id).getD [] ++ [rec1]
  let hist := if 100 < hist.length then hist.drop (hist.length - 100) else hist
  { ms1 with
    execution_history := Assoc.insert ms1.execution_history job_id hist,
    job_schedules := Assoc.insert ms1.job_schedules job_id .pending,
    active_executions := Assoc.erase ms1.active_executions execution_id }

/-- `_get_last_execution_time`: latest `scheduled_time` in the history. -/
def get_last_execution_time (ms : ManagerState) (job_id : String) : Option Nat :=
  match (Assoc.lookup ms.execution_history job_id).getD [] with
  | [] => none
  | r :: rs => some ((r :: rs).foldl (fun acc q => max acc q.scheduled_time) 0)

/-- Loop body of `_check_scheduled_jobs` over the snapshot of
`_scheduled_jobs.items()`, threading the manager state. -/
def checkJobsGo (execFor : String → Except String Bool) (now : Nat) :
    List (String × ScheduledJobSpec) → ManagerState → ManagerState
  | [], st => st
  | (job_id, spec) :: rest, st =>
      let st1 :=
        if Assoc.lookup st.job_schedules job_id ≠ some .pending then st
        else
          match get_next_execution spec.cron_expression
              ((get_last_execution_time st job_id).getD (now - 60)) with
          | .error _ => st
          | .ok next =>
              if next ≤ now then execute_scheduled_job (execFor job_id) now now spec next st
              else st
      checkJobsGo execFor now rest st1

/-- `_check_scheduled_jobs`: one scheduler tick at wall time `now`. -/
def check_scheduled_jobs (execFor : String → Except String Bool) (now : Nat)
    (ms : ManagerState) : ManagerState :=
  checkJobsGo execFor now ms.scheduled_jobs ms

/-! ### Spec-side reference definitions (for the refinement claims) -/

/-- Modelled from the spec (§3 `ObservedState`): the observed cluster phase. -/
inductive SpecPhase where
  | absent
  | running
  | stopped
  | failed
  | restarting
  | unknown
deriving DecidableEq

/-- Modelled from the spec (§4.6 step 2): the phase an observation maps to;
`none` is the not-found case. -/
def specPhaseOf : Option String → SpecPhase
  | none => .absent
  | some fs =>
      if fs = "RUNNING" then .running
      else if fs = "FINISHED" ∨ fs = "CANCELED" ∨ fs = "CANCELLED" then .stopped
      else if fs = "FAILED" then .failed
      else if fs = "RESTARTING" then .restarting
      else .unknown

/-- Modelled from the spec (§4.6 step 3): the decision table
`observed phase × has_changed × job_type → action`. -/
def decisionTableSpec : SpecPhase → Bool → JobType → ReconciliationAction
  | .absent, _, _ => .deploy
  | .unknown, _, _ => .deploy
  | .failed, _, _ => .restart
  | .stopped, _, _ => .deploy
  | .running, false, _ => .no_action
  | .running, true, .streaming => .update
  | .running, true, .batch => .stop
  | .restarting, _, _ => .no_action

/-- Modelled from the spec (§4.2): re-encode an enum value by its stable
string name (for `JobType` these are `"streaming"` / `"batch"`). -/
def encodeEnumByName (p : String × PyVal) : String × PyVal :=
  match p.2 with
  | .enum j => (p.1, PyVal.str j.value)
  | _ => p

/-- Modelled from the spec (§4.2, §8.1): `normalize` reorders keys into
sorted order, strips the excluded timestamp fields
(`created_at` / `last_updated_at`), and re-encodes enum values by their
stable string names via `encodeEnumByName`. -/
def normalizeSpecDict (d : List (String × PyVal)) : List (String × PyVal) :=
  sortPairs ((d.filter (fun p => p.1 ≠ "created_at" && p.1 ≠ "last_updated_at")).map
    encodeEnumByName)

instance : Inhabited JobSpec :=
  ⟨{ job_id := "", job_type := .streaming, artifact_path := "" }⟩

instance : Inhabited ReconciliationResult :=
  ⟨{ job_id := "", action_taken := .no_action, success := false }⟩

/-- Pointwise order on the counter fields of the statistics (everything except
`total_jobs` and the running mean). -/
def statsCounterLE (s1 s2 : ReconciliationStatistics) : Prop :=
  s1.successful_reconciliations ≤ s2.successful_reconciliations ∧
  s1.failed_reconciliations ≤ s2.failed_reconciliations ∧
  s1.concurrent_reconciliation_attempts ≤ s2.concurrent_reconciliation_attempts ∧
  (∀ a, Assoc.count s1.actions_taken a ≤ Assoc.count s2.actions_taken a) ∧
  (∀ c, Assoc.count s1.error_codes c ≤ Assoc.count s2.error_codes c)

/-! ## Theorems

First the ordering and association-list infrastructure, then one theorem per
claim (with witnesses and counterexamples where required). -/

theorem charListLe_total : ∀ as bs, charListLe as bs = true ∨ charListLe bs as = true := by
  intro as
  induction as with
  | nil => intro bs; left; rfl
  | cons a as ih =>
      intro bs
      cases bs with
      | nil => right; rfl
      | cons b bs =>
          by_cases h1 : a < b
          · left; simp [charListLe, h1]
          · by_cases h2 : b < a
            · right; simp [charListLe, h2]
            · rcases ih bs with h | h
              · left; simp [charListLe, h1, h2, h]
              · right; simp [charListLe, h1, h2, h]

theorem charListLe_trans :
    ∀ as bs cs, charListLe as bs = true → charListLe bs cs = true →
      charListLe as cs = true := by
  intro as
  induction as with
  | nil => intro bs cs _ _; rfl
  | cons a as ih =>
      intro bs cs h1 h2
      cases bs with
      | nil => simp [charListLe] at h1
      | cons b bs =>
          cases cs with
          | nil => simp [charListLe] at h2
          | cons c cs =>
              by_cases hab : a < b
              · by_cases hbc : b < c
                · simp [charListLe, lt_trans hab hbc]
                · by_cases hcb : c < b
                  · simp [charListLe, hbc, hcb] at h2
                  · have hbceq : b = c := le_antisymm (not_lt.mp hcb) (not_lt.mp hbc)
                    subst hbceq
                    simp [charListLe, hab]
              · by_cases hba : b < a
                · simp [charListLe, hab, hba] at h1
                · have habeq : a = b := le_antisymm (not_lt.mp hba) (not_lt.mp hab)
                  subst habeq
                  simp only [charListLe, lt_irrefl, if_false] at h1
                  by_cases hac : a < c
                  · simp [charListLe, hac]
                  · by_cases hca : c < a
                    · simp [charListLe, hac, hca] at h2
                    · have haceq : a = c := le_antisymm (not_lt.mp hca) (not_lt.mp hac)
                      subst haceq
                      simp only [charListLe, lt_irrefl, if_false] at h2 ⊢
                      exact ih bs cs h1 h2

theorem charListLe_antisymm :
    ∀ as bs, charListLe as bs = true → charListLe bs as = true → as = bs := by
  intro as
  induction as with
  | nil =>
      intro bs h1 h2
      cases bs with
      | nil => rfl
      | cons b bs => simp [charListLe] at h2
  | cons a as ih =>
      intro bs h1 h2
      cases bs with
      | nil => simp [charListLe] at h1
      | cons b bs =>
          by_cases hab : a < b
          · simp [charListLe, hab, lt_asymm hab] at h2
          · by_cases hba : b < a
            · simp [charListLe, hab, hba] at h1
            · have heq : a = b := le_antisymm (not_lt.mp hba) (not_lt.mp hab)
              subst heq
              simp only [charListLe, lt_irrefl, if_false] at h1 h2
              rw [ih bs h1 h2]


theorem string_toList_inj {s t : String} (h : s.toList = t.toList) : s = t := by
  cases s; cases t; simpa [String.toList] using congrArg String.mk h

theorem sortPairs_perm (d : List (String × PyVal)) : (sortPairs d).Perm d :=
  List.perm_insertionSort keyLe d

theorem sortPairs_sorted (d : List (String × PyVal)) : (sortPairs d).Sorted keyLe := by
  haveI : IsTotal (String × PyVal) keyLe := ⟨fun a b => charListLe_total _ _⟩
  haveI : IsTrans (String × PyVal) keyLe := ⟨fun _ _ _ h1 h2 => charListLe_trans _ _ _ h1 h2⟩
  exact List.sorted_insertionSort keyLe d

theorem sorted_perm_nodupkeys_eq :
    ∀ l1 l2 : List (String × PyVal), l1.Perm l2 → l1.Sorted keyLe →
      l2.Sorted keyLe → (l1.map Prod.fst).Nodup → l1 = l2 := by
  intro l1
  induction l1 with
  | nil =>
      intro l2 hp _ _ _
      exact (List.Perm.eq_nil hp.symm).symm
  | cons a t ih =>
      intro l2 hp hs1 hs2 hnd
      cases l2 with
      | nil => simpa using hp.eq_nil
      | cons b t2 =>
          by_cases hab : a = b
          · subst hab
            have ht : t.Perm t2 := hp.cons_inv
            have : t = t2 :=
              ih t2 ht hs1.of_cons hs2.of_cons (by simpa using hnd.of_cons)
            rw [this]
          · have ha2 : a ∈ t2 := by
              have := hp.subset (List.mem_cons_self a t)
              simpa [hab] using this
            have hb1 : b ∈ t := by
              have := hp.symm.subset (List.mem_cons_self b t2)
              have hba : b ≠ a := fun h => hab h.symm
              simpa [hba] using this
            have h1 : keyLe a b := List.rel_of_sorted_cons hs1 b hb1
            have h2 : keyLe b a := List.rel_of_sorted_cons hs2 a ha2
            have hkey : a.1 = b.1 :=
              string_toList_inj (charListLe_antisymm _ _ h1 h2)
            have : a.1 ∈ t.map Prod.fst := by
              rw [hkey]; exact List.mem_map_of_mem Prod.fst hb1
            simp [List.nodup_cons, this] at hnd

theorem pyval_ofOptStr_not_enum (o : Option String) : (PyVal.ofOptStr o).isEnum = false := by
  cases o <;> rfl

theorem pyval_ofOptInt_not_enum (o : Option Int) : (PyVal.ofOptInt o).isEnum = false := by
  cases o <;> rfl

theorem encode_eq_self_of_no_enum (l : List (String × PyVal))
    (h : ∀ p ∈ l, p.2.isEnum = false) : encodeJobTypeEnum l = l := by
  induction l with
  | nil => rfl
  | cons p t ih =>
      obtain ⟨k, v⟩ := p
      have hv := h (k, v) (List.mem_cons_self _ _)
      have ht := ih (fun q hq => h q (List.mem_cons_of_mem _ hq))
      by_cases hk : k = "job_type" <;> cases v <;>
        simp [PyVal.isEnum] at hv ⊢ <;>
          simp [encodeJobTypeEnum, hk] at ht ⊢ <;> exact ht

theorem encodeEnumByName_fst (p : String × PyVal) : (encodeEnumByName p).1 = p.1 := by
  obtain ⟨k, v⟩ := p; cases v <;> rfl

theorem encodeEnumByName_not_enum (p : String × PyVal) :
    (encodeEnumByName p).2.isEnum = false := by
  obtain ⟨k, v⟩ := p; cases v <;> rfl

theorem encodeJobTypeEnum_keys (d : List (String × PyVal)) :
    (encodeJobTypeEnum d).map Prod.fst = d.map Prod.fst := by
  induction d with
  | nil => rfl
  | cons p t ih =>
      obtain ⟨k, v⟩ := p
      by_cases hk : k = "job_type"
      · cases v <;> simp [encodeJobTypeEnum, hk] <;> simpa [encodeJobTypeEnum] using ih
      · simp [encodeJobTypeEnum, hk]
        simpa [encodeJobTypeEnum] using ih

theorem hashSpecDict_eq_of_perm (d1 d2 : List (String × PyVal))
    (hnd : (d1.map Prod.fst).Nodup)
    (hp : (excludeTrackerFields d1).Perm (excludeTrackerFields d2)) :
    hashSpecDict d1 = hashSpecDict d2 := by
  have hpe : (encodeJobTypeEnum (excludeTrackerFields d1)).Perm
      (encodeJobTypeEnum (excludeTrackerFields d2)) := hp.map _
  have hsp : (sortPairs (encodeJobTypeEnum (excludeTrackerFields d1))).Perm
      (sortPairs (encodeJobTypeEnum (excludeTrackerFields d2))) :=
    ((sortPairs_perm _).trans hpe).trans (sortPairs_perm _).symm
  have hnd1 : ((sortPairs (encodeJobTypeEnum (excludeTrackerFields d1))).map Prod.fst).Nodup := by
    have h1 : ((excludeTrackerFields d1).map Prod.fst).Nodup := by
      have hsub : (excludeTrackerFields d1).Sublist d1 := List.filter_sublist d1
      exact hnd.sublist (hsub.map Prod.fst)
    have h2 : ((encodeJobTypeEnum (excludeTrackerFields d1)).map Prod.fst).Nodup := by
      rw [encodeJobTypeEnum_keys]; exact h1
    exact (((sortPairs_perm _).map Prod.fst).nodup_iff).mpr h2
  have heq : sortPairs (encodeJobTypeEnum (excludeTrackerFields d1)) =
      sortPairs (encodeJobTypeEnum (excludeTrackerFields d2)) :=
    sorted_perm_nodupkeys_eq _ _ hsp (sortPairs_sorted _) (sortPairs_sorted _) hnd1
  unfold hashSpecDict
  rw [heq]

theorem spec_dict_keys_eq (spec : JobSpec) :
    spec.dict.map Prod.fst =
      ["job_id", "job_type", "artifact_path", "artifact_signature", "parallelism",
       "checkpoint_interval", "savepoint_path", "restart_strategy",
       "max_restart_attempts", "memory", "cpu_cores", "savepoint_trigger_interval",
       "checkpoint_timeout"] := rfl

theorem spec_dict_keys_nodup (spec : JobSpec) : (spec.dict.map Prod.fst).Nodup := by
  rw [spec_dict_keys_eq]; decide

theorem hashSpecDict_normalize (d : List (String × PyVal))
    (hkeys : ∀ p ∈ d,
      p.1 ≠ "created_at" ∧ p.1 ≠ "updated_at" ∧ p.1 ≠ "last_updated_at")
    (henum : ∀ p ∈ d, p.2.isEnum = true → p.1 = "job_type")
    (hnd : (d.map Prod.fst).Nodup) :
    hashSpecDict d = hashSpecDict (normalizeSpecDict d) := by
  have hA : excludeTrackerFields d = d := by
    unfold excludeTrackerFields
    exact List.filter_eq_self.mpr (fun p hp => by
      rcases hkeys p hp with ⟨h1, h2, _⟩
      simp [h1, h2])
  have hC : encodeJobTypeEnum d = d.map encodeEnumByName := by
    unfold encodeJobTypeEnum
    apply List.map_congr_left
    intro p hp
    obtain ⟨k, v⟩ := p
    by_cases hk : k = "job_type"
    · cases v <;> simp [encodeEnumByName, hk]
    · cases v with
      | enum j => exact absurd (henum (k, .enum j) hp rfl) hk
      | str s => simp [encodeEnumByName, hk]
      | int i => simp [encodeEnumByName, hk]
      | none => simp [encodeEnumByName, hk]
  have hB : normalizeSpecDict d = sortPairs (d.map encodeEnumByName) := by
    unfold normalizeSpecDict
    congr 2
    exact List.filter_eq_self.mpr (fun p hp => by
      rcases hkeys p hp with ⟨h1, _, h3⟩
      simp [h1, h3])
  have hmem : ∀ p ∈ sortPairs (d.map encodeEnumByName), ∃ q ∈ d, p = encodeEnumByName q := by
    intro p hp
    have hm : p ∈ d.map encodeEnumByName := ((sortPairs_perm _).mem_iff).mp hp
    obtain ⟨q, hq, hpq⟩ := List.mem_map.mp hm
    exact ⟨q, hq, hpq.symm⟩
  have hexcl2 : excludeTrackerFields (sortPairs (d.map encodeEnumByName)) =
      sortPairs (d.map encodeEnumByName) := by
    unfold excludeTrackerFields
    exact List.filter_eq_self.mpr (by
      intro p hp
      obtain ⟨q, hq, rfl⟩ := hmem p hp
      rcases hkeys q hq with ⟨h1, h2, _⟩
      rw [show (encodeEnumByName q).1 = q.1 from encodeEnumByName_fst q] at *
      simp [h1, h2, encodeEnumByName_fst])
  have henc2 : encodeJobTypeEnum (sortPairs (d.map encodeEnumByName)) =
      sortPairs (d.map encodeEnumByName) :=
    encode_eq_self_of_no_enum _ (by
      intro p hp
      obtain ⟨q, hq, rfl⟩ := hmem p hp
      exact encodeEnumByName_not_enum q)
  have hndg : ((d.map encodeEnumByName).map Prod.fst).Nodup := by
    have hkeq : (d.map encodeEnumByName).map Prod.fst = d.map Prod.fst := by
      rw [List.map_map]
      exact List.map_congr_left (fun p _ => encodeEnumByName_fst p)
    rw [hkeq]; exact hnd
  have hnds : ((sortPairs (d.map encodeEnumByName)).map Prod.fst).Nodup :=
    (((sortPairs_perm _).map Prod.fst).nodup_iff).mpr hndg
  have hidem : sortPairs (sortPairs (d.map encodeEnumByName)) =
      sortPairs (d.map encodeEnumByName) :=
    sorted_perm_nodupkeys_eq _ _ (sortPairs_perm _) (sortPairs_sorted _)
      (sortPairs_sorted _)
      ((((sortPairs_perm _).map Prod.fst).nodup_iff).mpr hnds)
  calc hashSpecDict d
      = sha256Hex (utf8Encode (dumpsSorted (sortPairs (d.map encodeEnumByName)))) := by
        unfold hashSpecDict; rw [hA, hC]
    _ = hashSpecDict (normalizeSpecDict d) := by
        unfold hashSpecDict; rw [hB, hexcl2, henc2, hidem]

theorem pyval_isEnum_str (s : String) : (PyVal.str s).isEnum = false := rfl

theorem pyval_isEnum_int (i : Int) : (PyVal.int i).isEnum = false := rfl

theorem spec_dict_hkeys (spec : JobSpec) :
    ∀ p ∈ spec.dict,
      p.1 ≠ "created_at" ∧ p.1 ≠ "updated_at" ∧ p.1 ≠ "last_updated_at" := by
  intro p hp
  simp [JobSpec.dict] at hp
  rcases hp with rfl | rfl | rfl | rfl | rfl | rfl | rfl | rfl | rfl | rfl | rfl | rfl | rfl <;>
    refine ⟨by simp, by simp, by simp⟩

theorem spec_dict_henum (spec : JobSpec) :
    ∀ p ∈ spec.dict, p.2.isEnum = true → p.1 = "job_type" := by
  intro p hp h
  simp [JobSpec.dict] at hp
  rcases hp with rfl | rfl | rfl | rfl | rfl | rfl | rfl | rfl | rfl | rfl | rfl | rfl | rfl <;>
    first
      | rfl
      | simp only [pyval_ofOptStr_not_enum, pyval_ofOptInt_not_enum,
          pyval_isEnum_str, pyval_isEnum_int, Bool.false_eq_true] at h

/-- C1: For every reconciliation of a desired spec against an observed cluster
phase, the action is chosen exactly per the decision table: phase absent or
unknown yields deploy; failed yields restart; stopped yields deploy; running
with `has_changed` false yields no_action; running with `has_changed` true
yields update for streaming and stop for batch; restarting yields no_action.
The observation `fs` is the Flink `state` string (`none` = not found), mapped
by `_convert_flink_state_to_job_state`; the action is computed by
`_determine_reconciliation_action` with the change tracker consulted. -/
theorem C1_decision_table (cache : TrackerCache) (spec : JobSpec) (fs : Option String) :
    determine_reconciliation_action (some cache) spec
        (fs.map convert_flink_state_to_job_state) =
      decisionTableSpec (specPhaseOf fs)
        (tracker_has_changed cache spec.job_id spec) spec.job_type := by
  have hrun : determine_reconciliation_action (some cache) spec (some .running) =
      decisionTableSpec .running (tracker_has_changed cache spec.job_id spec) spec.job_type := by
    cases hc' : tracker_has_changed cache spec.job_id spec <;>
      cases hjt : spec.job_type <;>
        simp [determine_reconciliation_action, decisionTableSpec, hc', hjt]
  cases fs with
  | none =>
      cases h : tracker_has_changed cache spec.job_id spec <;>
        simp [determine_reconciliation_action, specPhaseOf, decisionTableSpec]
  | some s =>
      by_cases h1 : s = "RUNNING"
      · subst h1
        simpa [convert_flink_state_to_job_state, specPhaseOf] using hrun
      · by_cases h2 : s = "FINISHED"
        · subst h2
          simp [determine_reconciliation_action, specPhaseOf, decisionTableSpec,
            convert_flink_state_to_job_state]
        · by_cases h3 : s = "CANCELED"
          · subst h3
            simp [determine_reconciliation_action, specPhaseOf, decisionTableSpec,
              convert_flink_state_to_job_state]
          · by_cases h4 : s = "CANCELLED"
            · subst h4
              simp [determine_reconciliation_action, specPhaseOf, decisionTableSpec,
                convert_flink_state_to_job_state]
            · by_cases h5 : s = "FAILED"
              · subst h5
                simp [determine_reconciliation_action, specPhaseOf, decisionTableSpec,
                  convert_flink_state_to_job_state]
              · by_cases h6 : s = "RESTARTING"
                · subst h6
                  simp [determine_reconciliation_action, specPhaseOf, decisionTableSpec,
                    convert_flink_state_to_job_state]
                · simp [determine_reconciliation_action, specPhaseOf, decisionTableSpec,
                    convert_flink_state_to_job_state, h1, h2, h3, h4, h5, h6]

/-- C6: For every pair of spec dictionaries that differ only in excluded
fields or in key ordering, `calculate_spec_hash`'s pipeline produces the same
SHA-256 hex digest; and for all valid specs,
`hash(spec) = hash(normalize(spec))` where `normalize` reorders keys, strips
excluded fields, and re-encodes enums by their stable string names. -/
theorem C6_spec_hash_canonical :
    (∀ spec : JobSpec,
      calculate_spec_hash spec = hashSpecDict (normalizeSpecDict spec.dict)) ∧
    (∀ d1 d2 : List (String × PyVal), (d1.map Prod.fst).Nodup →
      (excludeTrackerFields d1).Perm (excludeTrackerFields d2) →
      hashSpecDict d1 = hashSpecDict d2) := by
  constructor
  · intro spec
    exact hashSpecDict_normalize spec.dict (spec_dict_hkeys spec)
      (spec_dict_henum spec) (spec_dict_keys_nodup spec)
  · intro d1 d2 hnd hp
    exact hashSpecDict_eq_of_perm d1 d2 hnd hp

/-- Witness for C6 at a concrete input: two dictionaries that differ only in
the value of an excluded field (`created_at`) and in key order hash
identically, and the normalize equation holds at a concrete spec. -/
theorem C6_spec_hash_canonical_witness :
    (([(("b" : String), PyVal.int 1), ("a", PyVal.str "x"),
        ("created_at", PyVal.str "t1")].map Prod.fst).Nodup ∧
      (excludeTrackerFields
          [(("b" : String), PyVal.int 1), ("a", PyVal.str "x"),
            ("created_at", PyVal.str "t1")]).Perm
        (excludeTrackerFields
          [(("a" : String), PyVal.str "x"), ("created_at", PyVal.str "t2"),
            ("b", PyVal.int 1)])) ∧
    hashSpecDict
        [(("b" : String), PyVal.int 1), ("a", PyVal.str "x"),
          ("created_at", PyVal.str "t1")] =
      hashSpecDict
        [(("a" : String), PyVal.str "x"), ("created_at", PyVal.str "t2"),
          ("b", PyVal.int 1)] :=
  ⟨⟨by decide, by decide⟩,
    C6_spec_hash_canonical.2 _ _ (by decide) (by decide)⟩

/-- C4 counterexample: with `failure_threshold = 3`, run the call sequence
failure(t=10), success(t=20), failure(t=30), success(t=40), failure(t=50)
against a fresh closed breaker.  The success at `t=20` leaves
`failure_count = 1` (the claim says every success while closed resets it to
zero), and the breaker ends `OPEN` after three non-consecutive classified
failures despite the intervening successes. -/
theorem C4_counterexample :
    let run := fun l : List (Nat × FnOutcome) =>
      l.foldl (fun (b : CircuitBreaker) p => (b.call p.1 p.2).2)
        { failure_threshold := 3, recovery_timeout := 30 }
    ((run [(10, .expectedExn)]).state = .CLOSED) ∧
    ((run [(10, .expectedExn), (20, .success)]).failure_count = 1) ∧
    ((run [(10, .expectedExn), (20, .success), (30, .expectedExn),
        (40, .success)]).state = .CLOSED) ∧
    ((run [(10, .expectedExn), (20, .success), (30, .expectedExn),
        (40, .success), (50, .expectedExn)]).state = .OPEN) := by
  decide

/-- C4 (amended): a success resets the failure counter only during a
`HALF_OPEN` probe (transitioning to `CLOSED`); while `CLOSED`, a successful
call leaves the breaker entirely unchanged, so the breaker opens as soon as
the cumulative number of classified failures since the last reset (or
successful probe) reaches `failure_threshold`, regardless of intervening
successes. -/
theorem C4_amended (b : CircuitBreaker) (now : Nat) :
    (b.state = .CLOSED → (b.call now .success).2 = b) ∧
    (b.state = .HALF_OPEN →
      (b.call now .success).2.failure_count = 0 ∧
      (b.call now .success).2.state = .CLOSED) ∧
    (b.state = .CLOSED →
      (b.call now .expectedExn).2.failure_count = b.failure_count + 1 ∧
      ((b.call now .expectedExn).2.state = .OPEN ↔
        b.failure_threshold ≤ b.failure_count + 1)) := by
  refine ⟨?_, ?_, ?_⟩
  · intro h
    simp [CircuitBreaker.call, CircuitBreaker.exec, CircuitBreaker.onSuccess, h]
  · intro h
    simp [CircuitBreaker.call, CircuitBreaker.exec, CircuitBreaker.onSuccess, h]
  · intro h
    constructor
    · simp [CircuitBreaker.call, CircuitBreaker.exec, CircuitBreaker.onFailure, h]
      split <;> rfl
    · simp only [CircuitBreaker.call, CircuitBreaker.exec, CircuitBreaker.onFailure, h]
      constructor
      · intro hopen
        by_contra hlt
        simp [if_neg hlt, h] at hopen
      · intro hle
        simp [if_pos hle]

/-- Witness for C4 (amended): a concrete closed breaker with two recorded
failures is untouched by a success, and a concrete half-open breaker is
cleared by one. -/
theorem C4_amended_witness :
    ((({ failure_threshold := 3, recovery_timeout := 30,
          failure_count := 2 } : CircuitBreaker).state = .CLOSED) ∧
      (CircuitBreaker.call
          { failure_threshold := 3, recovery_timeout := 30, failure_count := 2 }
          7 .success).2 =
        { failure_threshold := 3, recovery_timeout := 30, failure_count := 2 }) ∧
    ((({ failure_threshold := 3, recovery_timeout := 30, state := .HALF_OPEN,
          failure_count := 2, last_failure_time := some 1 } : CircuitBreaker).state
            = .HALF_OPEN) ∧
      (CircuitBreaker.call
          { failure_threshold := 3, recovery_timeout := 30, state := .HALF_OPEN,
            failure_count := 2, last_failure_time := some 1 }
          7 .success).2.failure_count = 0) :=
by
  refine ⟨⟨by decide, ?_⟩, ⟨by decide, ?_⟩⟩
  · exact (C4_amended _ 7).1 (by decide)
  · exact ((C4_amended _ 7).2.1 (by decide)).1

/-- C7: evaluation of `get_next_execution` at the failing input.  For
`expr = "* * * * *"` and `t = 1704065410` (2023-12-31 23:30:10 UTC, a
Sunday), the claim and the spec require a fire within 60 seconds of `t`, but
the code returns 1704067200 (2024-01-01 00:00 UTC, the next Monday), 1790
seconds later: the conversion `current.weekday() + 1` maps Sunday to 7,
which is never a member of the day-of-week value set `{0..6}`, so no minute
of any Sunday ever matches — even for the all-wildcard expression. -/
theorem C7_sunday_divergence :
    get_next_execution "* * * * *" 1704065410 = .ok 1704067200 ∧
    ¬ (1704067200 ≤ 1704065410 + 60) ∧
    pythonWeekday 1704065410 = 6 := by
  refine ⟨by decide, by decide, by decide⟩

theorem Assoc.lookup_eq_none_of_notin {α : Type} (m : List (String × α)) (k : String)
    (h : k ∉ m.map Prod.fst) : Assoc.lookup m k = none := by
  induction m with
  | nil => rfl
  | cons p t ih =>
      obtain ⟨a, b⟩ := p
      simp only [List.map_cons, List.mem_cons] at h
      push_neg at h
      simp only [Assoc.lookup]
      rw [if_neg (fun hh : a = k => h.1 hh.symm)]
      exact ih h.2

theorem Assoc.keys_erase_sublist {α : Type} (m : List (String × α)) (k : String) :
    ((Assoc.erase m k).map Prod.fst).Sublist (m.map Prod.fst) := by
  induction m with
  | nil => simp [Assoc.erase]
  | cons p t ih =>
      obtain ⟨a, b⟩ := p
      by_cases hak : a = k
      · simp only [Assoc.erase, if_pos hak, List.map_cons]
        exact List.sublist_cons_self _ _
      · simp only [Assoc.erase, if_neg hak, List.map_cons]
        exact ih.cons₂ a

theorem Assoc.nodup_keys_erase {α : Type} (m : List (String × α)) (k : String)
    (hnd : (m.map Prod.fst).Nodup) : ((Assoc.erase m k).map Prod.fst).Nodup :=
  (Assoc.keys_erase_sublist m k).nodup hnd

theorem Assoc.lookup_erase_insert {α : Type} (m : List (String × α)) (k : String) (v : α)
    (hnd : (m.map Prod.fst).Nodup) :
    Assoc.lookup (Assoc.erase (Assoc.insert m k v) k) k = none := by
  induction m with
  | nil => simp [Assoc.insert, Assoc.erase, Assoc.lookup]
  | cons p t ih =>
      obtain ⟨a, b⟩ := p
      simp only [List.map_cons, List.nodup_cons] at hnd
      by_cases hak : a = k
      · subst hak
        simp only [Assoc.insert, if_pos rfl, Assoc.erase]
        exact Assoc.lookup_eq_none_of_notin t a hnd.1
      · simp only [Assoc.insert, if_neg hak, Assoc.erase, if_neg hak, Assoc.lookup,
          if_neg hak]
        exact ih hnd.2

theorem reconcileJob_active (cfg : ReconcilerConfig) (env : ClientEnv)
    (now dur : Nat) (spec : JobSpec) (s : EngineState)
    (active1 : List (String × Nat))
    (hvalid : is_valid_job_id spec.job_id = true)
    (hcc : check_concurrent_reconciliation cfg s.active_reconciliations
      spec.job_id now = .ok active1) :
    (reconcileJob cfg env now dur spec s).2.1.active_reconciliations =
      Assoc.erase (Assoc.insert active1 spec.job_id now) spec.job_id := by
  unfold reconcileJob
  simp only [hvalid, hcc]
  rcases hst : (getJobStatusProtected env now s.breaker spec.job_id).1 with e | cs
  · simp only [hst]; rfl
  · simp only [hst]
    rcases hex : (executeReconciliationAction env spec
        (determine_reconciliation_action s.tracker spec cs) s.tracker
        s.state_store dur).1 with e2 | r2 <;>
      simp only [hex] <;> rfl

/-- C3: Every call to `reconcile_job` that registers `job_id` in
`active_reconciliations` (a valid id whose entry is absent, or present but
older than the reconciliation timeout, so that the call passes the exclusion
check and marks itself) leaves the map without an entry for `job_id` when it
returns — on every exit path: success, failed result, and body exception
(the inner `finally` always runs before the outer handlers).  Key uniqueness
of the map is the Python-dict invariant. -/
theorem C3_active_cleanup (cfg : ReconcilerConfig) (env : ClientEnv)
    (now dur : Nat) (spec : JobSpec) (s : EngineState)
    (hvalid : is_valid_job_id spec.job_id = true)
    (hnd : (s.active_reconciliations.map Prod.fst).Nodup)
    (hreg : Assoc.lookup s.active_reconciliations spec.job_id = none ∨
      ∃ t0, Assoc.lookup s.active_reconciliations spec.job_id = some t0 ∧
        cfg.reconciliation_timeout < now - t0) :
    Assoc.lookup (reconcileJob cfg env now dur spec s).2.1.active_reconciliations
      spec.job_id = none := by
  obtain ⟨active1, hcc, hnd1⟩ : ∃ a1,
      check_concurrent_reconciliation cfg s.active_reconciliations spec.job_id now
        = .ok a1 ∧ (a1.map Prod.fst).Nodup := by
    rcases hreg with habs | ⟨t0, hsome, hstale⟩
    · refine ⟨s.active_reconciliations, ?_, hnd⟩
      unfold check_concurrent_reconciliation; rw [habs]
    · refine ⟨Assoc.erase s.active_reconciliations spec.job_id, ?_,
        Assoc.nodup_keys_erase _ _ hnd⟩
      unfold check_concurrent_reconciliation
      simp only [hsome]
      rw [if_pos hstale]
  rw [reconcileJob_active cfg env now dur spec s active1 hvalid hcc]
  exact Assoc.lookup_erase_insert active1 spec.job_id now hnd1

/-- Witness for C3 at a concrete registering call: fresh engine state, valid
id, default client environment. -/
theorem C3_active_cleanup_witness :
    (is_valid_job_id "j1" = true) ∧
    Assoc.lookup
      (reconcileJob {} {} 100 5
        { job_id := "j1", job_type := .streaming, artifact_path := "/a.jar" }
        {}).2.1.active_reconciliations "j1" = none :=
  ⟨by decide,
    C3_active_cleanup {} {} 100 5
      { job_id := "j1", job_type := .streaming, artifact_path := "/a.jar" } {}
      (by decide) (by decide) (Or.inl rfl)⟩

theorem reconcileJob_stop_run (cfg : ReconcilerConfig) (env : ClientEnv)
    (now dur : Nat) (spec : JobSpec) (s : EngineState) (cache : TrackerCache)
    (hvalid : is_valid_job_id spec.job_id = true)
    (hactive : Assoc.lookup s.active_reconciliations spec.job_id = none)
    (hbreaker : s.breaker = none)
    (htracker : s.tracker = some cache)
    (hci : env.cluster_info = .ok ())
    (hjd : env.job_details = .ok "RUNNING")
    (hchanged : tracker_has_changed cache spec.job_id spec = true)
    (hbatch : spec.job_type = .batch)
    (hstop : env.stop_result = .ok ()) :
    (reconcileJob cfg env now dur spec s).1 =
      .ok { job_id := spec.job_id, action_taken := .stop, success := true,
            duration_ms := dur } ∧
    ClientCall.stopJob spec.job_id ∈ (reconcileJob cfg env now dur spec s).2.2 ∧
    (reconcileJob cfg env now dur spec s).2.1.tracker =
      some (tracker_update cache spec.job_id spec) := by
  have hcc : check_concurrent_reconciliation cfg s.active_reconciliations
      spec.job_id now = .ok s.active_reconciliations := by
    unfold check_concurrent_reconciliation; rw [hactive]
  have hst : getJobStatusProtected env now s.breaker spec.job_id =
      (.ok (some .running), none, [.getClusterInfo, .getJobDetails spec.job_id]) := by
    rw [hbreaker]; unfold getJobStatusProtected
    simp only [hci, hjd]
    rfl
  have hdet : determine_reconciliation_action s.tracker spec (some .running) = .stop := by
    rw [htracker]; unfold determine_reconciliation_action
    simp [hchanged, hbatch]
  have hex : executeReconciliationAction env spec .stop s.tracker s.state_store dur =
      (.ok { job_id := spec.job_id, action_taken := .stop, success := true,
             duration_ms := dur },
       some (tracker_update cache spec.job_id spec),
       s.state_store.map (fun m => Assoc.insert m spec.job_id JobState.running),
       [.stopJob spec.job_id]) := by
    rw [htracker]; unfold executeReconciliationAction actionClientStep
    simp [hstop]
  unfold reconcileJob
  simp only [hvalid, hcc, hst, hdet, hex]
  refine ⟨rfl, by simp, rfl⟩

theorem Assoc.lookup_insert {α : Type} (m : List (String × α)) (k k' : String) (v : α) :
    Assoc.lookup (Assoc.insert m k v) k' =
      if k' = k then some v else Assoc.lookup m k' := by
  induction m with
  | nil =>
      by_cases h : k' = k
      · subst h; simp [Assoc.insert, Assoc.lookup]
      · simp [Assoc.insert, Assoc.lookup, h, Ne.symm h]
  | cons p t ih =>
      obtain ⟨a, b⟩ := p
      by_cases hak : a = k
      · subst hak
        by_cases h : a = k'
        · subst h; simp [Assoc.insert, Assoc.lookup]
        · simp [Assoc.insert, Assoc.lookup, h, Ne.symm h]
      · by_cases h : a = k'
        · subst h
          simp [Assoc.insert, Assoc.lookup, hak, Ne.symm hak]
        · simp [Assoc.insert, Assoc.lookup, hak, h, ih]

theorem wordToHex8_length (w : Nat) : (wordToHex8 w).length = 8 := by
  simp [wordToHex8]

theorem sha256Hex_length (msg : List Nat) : (sha256Hex msg).length = 64 := by
  unfold sha256Hex
  simp [String.join, List.foldl, String.length_append, wordToHex8_length]

theorem calculate_spec_hash_length (spec : JobSpec) :
    (calculate_spec_hash spec).length = 64 := by
  unfold calculate_spec_hash hashSpecDict
  exact sha256Hex_length _

/-- C5 (amended): for every reconciliation whose selected action is stop (a
running job whose spec changed and whose job_type is batch), executing the
action calls the client's stop for that job_id and then **updates** the
change tracker's recorded hash for that job_id to the new spec hash
(`_execute_reconciliation_action` falls through to `update_tracker` for
every successful non-`no_action` action). -/
theorem C5_stop_updates_tracker (cfg : ReconcilerConfig) (env : ClientEnv)
    (now dur : Nat) (spec : JobSpec) (s : EngineState) (cache : TrackerCache)
    (hvalid : is_valid_job_id spec.job_id = true)
    (hactive : Assoc.lookup s.active_reconciliations spec.job_id = none)
    (hbreaker : s.breaker = none)
    (htracker : s.tracker = some cache)
    (hci : env.cluster_info = .ok ())
    (hjd : env.job_details = .ok "RUNNING")
    (hchanged : tracker_has_changed cache spec.job_id spec = true)
    (hbatch : spec.job_type = .batch)
    (hstop : env.stop_result = .ok ()) :
    (reconcileJob cfg env now dur spec s).1 =
      .ok { job_id := spec.job_id, action_taken := .stop, success := true,
            duration_ms := dur } ∧
    ClientCall.stopJob spec.job_id ∈ (reconcileJob cfg env now dur spec s).2.2 ∧
    Assoc.lookup (((reconcileJob cfg env now dur spec s).2.1.tracker).getD [])
        spec.job_id = some (calculate_spec_hash spec) := by
  obtain ⟨h1, h2, h3⟩ := reconcileJob_stop_run cfg env now dur spec s cache
    hvalid hactive hbreaker htracker hci hjd hchanged hbatch hstop
  refine ⟨h1, h2, ?_⟩
  rw [h3]
  unfold tracker_update
  simp [Assoc.lookup_insert]

/-- C5 counterexample: a concrete stop-run (running batch job "j2" whose
recorded hash "x" differs from the spec hash) after which the tracker's
recorded hash for "j2" is no longer "x" — the code updates the tracker after
a successful stop, so the claim "leaves the recorded hash unchanged" is
false. -/
theorem C5_counterexample :
    ((reconcileJob {} { job_details := .ok "RUNNING" } 100 5
        { job_id := "j2", job_type := .batch, artifact_path := "/b.jar" }
        { tracker := some [("j2", "x")] }).1 =
      .ok { job_id := "j2", action_taken := .stop, success := true,
            duration_ms := 5 }) ∧
    Assoc.lookup
        (((reconcileJob {} { job_details := .ok "RUNNING" } 100 5
          { job_id := "j2", job_type := .batch, artifact_path := "/b.jar" }
          { tracker := some [("j2", "x")] }).2.1.tracker).getD []) "j2" ≠
      some "x" := by
  have hchg : tracker_has_changed [("j2", "x")] "j2"
      { job_id := "j2", job_type := .batch, artifact_path := "/b.jar" } = true := by
    unfold tracker_has_changed
    rw [show Assoc.lookup [("j2", "x")] "j2" = some "x" from rfl]
    refine decide_eq_true ?_
    intro hcon
    have hx := Option.some.inj hcon
    have hlen := congrArg String.length hx
    rw [calculate_spec_hash_length] at hlen
    exact absurd hlen (by decide)
  obtain ⟨h1, _h2, h3⟩ := reconcileJob_stop_run {} { job_details := .ok "RUNNING" }
    100 5 { job_id := "j2", job_type := .batch, artifact_path := "/b.jar" }
    { tracker := some [("j2", "x")] } [("j2", "x")]
    (by decide) rfl rfl rfl rfl rfl hchg rfl rfl
  refine ⟨h1, ?_⟩
  rw [h3]
  simp only [Option.getD_some]
  unfold tracker_update
  rw [Assoc.lookup_insert]
  rw [if_pos rfl]
  intro hcon
  have hx := Option.some.inj hcon
  have hlen := congrArg String.length hx
  rw [calculate_spec_hash_length] at hlen
  exact absurd hlen (by decide)

/-- Witness for C5 (amended) at a concrete input: job "j2" running, batch,
tracked cache empty (so `has_changed` is true), stop succeeding. -/
theorem C5_stop_updates_tracker_witness :
    (is_valid_job_id "j2" = true ∧
      tracker_has_changed [] "j2"
        { job_id := "j2", job_type := .batch, artifact_path := "/b.jar" } = true) ∧
    ((reconcileJob {} { job_details := .ok "RUNNING" } 100 5
        { job_id := "j2", job_type := .batch, artifact_path := "/b.jar" }
        { tracker := some [] }).1 =
      .ok { job_id := "j2", action_taken := .stop, success := true,
            duration_ms := 5 }) ∧
    ClientCall.stopJob "j2" ∈
      (reconcileJob {} { job_details := .ok "RUNNING" } 100 5
        { job_id := "j2", job_type := .batch, artifact_path := "/b.jar" }
        { tracker := some [] }).2.2 ∧
    Assoc.lookup
        (((reconcileJob {} { job_details := .ok "RUNNING" } 100 5
          { job_id := "j2", job_type := .batch, artifact_path := "/b.jar" }
          { tracker := some [] }).2.1.tracker).getD []) "j2" =
      some (calculate_spec_hash
        { job_id := "j2", job_type := .batch, artifact_path := "/b.jar" }) :=
  ⟨⟨by decide, rfl⟩,
    C5_stop_updates_tracker {} { job_details := .ok "RUNNING" } 100 5
      { job_id := "j2", job_type := .batch, artifact_path := "/b.jar" }
      { tracker := some [] } [] (by decide) rfl rfl rfl rfl rfl rfl rfl rfl⟩

/-- C10: `reconcile_all` on an empty spec list returns the empty list
immediately, leaves the engine state (in particular every statistics field,
including `total_jobs`) unchanged, creates no per-job task, and makes no
cluster call (empty trace). -/
theorem C10_empty_batch (cfg : ReconcilerConfig) (be : BatchEnv) (s : EngineState) :
    reconcileAll cfg be [] s = (.ok [], s, []) := rfl

theorem executeReconciliationAction_ok_job_id (env : ClientEnv) (spec : JobSpec)
    (action : ReconciliationAction) (tracker : Option TrackerCache)
    (store : Option (List (String × JobState))) (dur : Nat)
    (r : ReconciliationResult)
    (h : (executeReconciliationAction env spec action tracker store dur).1 = .ok r) :
    r.job_id = spec.job_id := by
  unfold executeReconciliationAction at h
  by_cases ha : action = .no_action
  · rw [if_pos ha] at h
    have := Except.ok.inj h
    rw [← this]
  · rw [if_neg ha] at h
    rcases hstep : (actionClientStep env spec action).1 with u | u <;>
      simp only [hstep] at h
    · exact absurd h (by simp)
    · have := Except.ok.inj h
      rw [← this]

theorem reconcileJob_ok_job_id (cfg : ReconcilerConfig) (env : ClientEnv)
    (now dur : Nat) (spec : JobSpec) (s : EngineState) (r : ReconciliationResult)
    (h : (reconcileJob cfg env now dur spec s).1 = .ok r) :
    r.job_id = spec.job_id := by
  unfold reconcileJob at h
  by_cases hv : is_valid_job_id spec.job_id = true
  · rw [hv, if_pos rfl] at h
    rcases hcc : check_concurrent_reconciliation cfg s.active_reconciliations
        spec.job_id now with t0 | a1 <;> simp only [hcc] at h
    · have := Except.ok.inj h
      rw [← this]
    · rcases hst : (getJobStatusProtected env now s.breaker spec.job_id).1
          with e | cs <;> simp only [hst] at h
      · have := Except.ok.inj h
        rw [← this]; rfl
      · rcases hex : (executeReconciliationAction env spec
            (determine_reconciliation_action s.tracker spec cs) s.tracker
            s.state_store dur).1 with e2 | r2 <;> simp only [hex] at h
        · have := Except.ok.inj h
          rw [← this]; rfl
        · have := Except.ok.inj h
          rw [← this]
          exact executeReconciliationAction_ok_job_id env spec _ _ _ dur r2 hex
  · rw [if_neg (fun hh => hv hh)] at h
    exact absurd h (by simp)

theorem runTasks_length (cfg : ReconcilerConfig) (envf : Nat → ClientEnv)
    (now dur : Nat) :
    ∀ (specs : List JobSpec) (i : Nat) (s : EngineState),
      (runTasks cfg envf now dur specs i s).1.length = specs.length := by
  intro specs
  induction specs with
  | nil => intro i s; rfl
  | cons sp rest ih =>
      intro i s
      simp only [runTasks, List.length_cons]
      rw [ih]

theorem runTasks_ok_job_id (cfg : ReconcilerConfig) (envf : Nat → ClientEnv)
    (now dur : Nat) :
    ∀ (specs : List JobSpec) (i : Nat) (s : EngineState),
      List.Forall₂ (fun (sp : JobSpec) (out : Except TaskExn ReconciliationResult) =>
        ∀ r, out = .ok r → r.job_id = sp.job_id) specs
        (runTasks cfg envf now dur specs i s).1 := by
  intro specs
  induction specs with
  | nil => intro i s; exact .nil
  | cons sp rest ih =>
      intro i s
      simp only [runTasks]
      exact .cons (fun r h => reconcileJob_ok_job_id cfg (envf i) now dur sp s r h)
        (ih (i + 1) _)
theorem string_eq_empty_of_length_eq_zero {s : String} (h : s.length = 0) : s = "" := by
  cases s with
  | mk data =>
      cases data with
      | nil => rfl
      | cons c t => simp [String.length] at h

theorem forall₂_mem_zip {α β : Type} {R : α → β → Prop} :
    ∀ {l1 : List α} {l2 : List β}, List.Forall₂ R l1 l2 →
      ∀ p ∈ l1.zip l2, R p.1 p.2 := by
  intro l1 l2 h
  induction h with
  | nil => intro p hp; simp at hp
  | cons hr ht ih =>
      intro p hp
      rw [List.zip_cons_cons] at hp
      rcases List.mem_cons.mp hp with rfl | hp'
      · exact hr
      · exact ih p hp'

theorem processResults_ok
    (pairs : List (JobSpec × Except TaskExn ReconciliationResult))
    (hids : ∀ p ∈ pairs, p.1.job_id ≠ "")
    (hok : ∀ p ∈ pairs, ∀ r, p.2 = .ok r → r.job_id = p.1.job_id) :
    ∃ rs, processResults pairs = .ok rs ∧
      List.Forall₂ (fun (p : JobSpec × Except TaskExn ReconciliationResult)
          (r : ReconciliationResult) =>
        r.job_id = p.1.job_id ∧
        ∀ e, p.2 = .error e →
          r.success = false ∧ r.error_code = some "RECONCILIATION_FAILED" ∧
            r.error_message = some e.str) pairs rs := by
  induction pairs with
  | nil => exact ⟨[], rfl, .nil⟩
  | cons p rest ih =>
      obtain ⟨sp, out⟩ := p
      obtain ⟨rs, hrs, hfa⟩ := ih (fun q hq => hids q (List.mem_cons_of_mem _ hq))
        (fun q hq => hok q (List.mem_cons_of_mem _ hq))
      cases out with
      | ok r =>
          refine ⟨r :: rs, ?_, ?_⟩
          · simp only [processResults, hrs]
          · refine .cons ⟨hok (sp, .ok r) (List.mem_cons_self _ _) r rfl, ?_⟩ hfa
            intro e he
            exact absurd he (by simp)
      | error e =>
          have hid := hids (sp, .error e) (List.mem_cons_self _ _)
          have hmk : mkReconciliationResult sp.job_id .no_action false
              (some "RECONCILIATION_FAILED") (some (TaskExn.str e)) 0 [] =
            .ok { job_id := sp.job_id, action_taken := .no_action, success := false,
                  error_code := some "RECONCILIATION_FAILED",
                  error_message := some (TaskExn.str e), duration_ms := 0,
                  context := [] } := by
            unfold mkReconciliationResult
            rw [if_neg (fun hl => hid (string_eq_empty_of_length_eq_zero hl))]
          refine ⟨{ job_id := sp.job_id, action_taken := .no_action, success := false,
                    error_code := some "RECONCILIATION_FAILED",
                    error_message := some (TaskExn.str e), duration_ms := 0,
                    context := [] } :: rs, ?_, ?_⟩
          · simp only [processResults, hmk, hrs]
          · refine .cons ⟨rfl, ?_⟩ hfa
            intro e' he'
            have hee := Except.error.inj he'
            rw [← hee]
            exact ⟨rfl, rfl, rfl⟩

/-- C2: for every list of job specs (whose ids are nonempty, as the data
model's `job_id` pattern `[A-Za-z0-9_-]{1..255}` requires), `reconcile_all`
returns (does not raise) a list of exactly the same length whose i-th result
carries the job_id of the i-th input spec, and any exception raised by an
individual per-job task is converted into a failed result with code
`RECONCILIATION_FAILED` and the exception's message, rather than aborting
the batch. -/
theorem C2_reconcile_all_alignment (cfg : ReconcilerConfig) (be : BatchEnv)
    (specs : List JobSpec) (s : EngineState)
    (hids : ∀ sp ∈ specs, sp.job_id ≠ "") :
    ∃ results,
      (reconcileAll cfg be specs s).1 = .ok results ∧
      results.length = specs.length ∧
      List.Forall₂ (fun (sp : JobSpec) (r : ReconciliationResult) =>
        r.job_id = sp.job_id) specs results ∧
      List.Forall₂ (fun (p : JobSpec × Except TaskExn ReconciliationResult)
          (r : ReconciliationResult) =>
        ∀ e, p.2 = .error e →
          r.success = false ∧ r.error_code = some "RECONCILIATION_FAILED" ∧
            r.error_message = some e.str)
        (specs.zip (runTasks cfg be.envf be.now be.dur specs 0
          { s with statistics :=
            { s.statistics with total_jobs := specs.length } }).1) results := by
  by_cases hempty : specs = []
  · subst hempty
    exact ⟨[], rfl, rfl, .nil, .nil⟩
  · have hne : specs.isEmpty = false := by
      cases specs with
      | nil => exact absurd rfl hempty
      | cons a t => rfl
    obtain ⟨rs, hrs, hfa⟩ := processResults_ok
      (specs.zip (runTasks cfg be.envf be.now be.dur specs 0
        { s with statistics :=
          { s.statistics with total_jobs := specs.length } }).1)
      (fun p hp => hids p.1 (List.of_mem_zip hp).1)
      (by
        intro p hp r hr
        exact forall₂_mem_zip
          (runTasks_ok_job_id cfg be.envf be.now be.dur specs 0
            { s with statistics :=
              { s.statistics with total_jobs := specs.length } }) p hp r hr)
    have hlenouts : (runTasks cfg be.envf be.now be.dur specs 0
        { s with statistics :=
          { s.statistics with total_jobs := specs.length } }).1.length = specs.length :=
      runTasks_length cfg be.envf be.now be.dur specs 0 _
    have hlenzip : (specs.zip (runTasks cfg be.envf be.now be.dur specs 0
        { s with statistics :=
          { s.statistics with total_jobs := specs.length } }).1).length = specs.length := by
      rw [List.length_zip, hlenouts]
      exact Nat.min_self _
    refine ⟨rs, ?_, ?_, ?_, hfa.imp (fun a b hab => hab.2)⟩
    · unfold reconcileAll
      rw [hne]
      simp only [Bool.false_eq_true, if_false, hrs]
    · rw [← hfa.length_eq, hlenzip]
    · have h1 : List.Forall₂ (fun (p : JobSpec × Except TaskExn ReconciliationResult)
          (r : ReconciliationResult) => r.job_id = p.1.job_id)
          (specs.zip (runTasks cfg be.envf be.now be.dur specs 0
            { s with statistics :=
              { s.statistics with total_jobs := specs.length } }).1) rs :=
        hfa.imp (fun a b hab => hab.1)
      have h2 := (@List.forall₂_map_left_iff _ _ _
        (fun (sp : JobSpec) (r : ReconciliationResult) => r.job_id = sp.job_id)
        Prod.fst _ _).mpr h1
      rwa [List.map_fst_zip _ _ (le_of_eq hlenouts.symm)] at h2

/-- Witness for C2 at a concrete batch: one valid spec ("j1", deploys) and
one spec whose id `safe_cast_job_id` rejects ("bad id", its task raises
`ValueError` and the loop converts it). -/
theorem C2_reconcile_all_alignment_witness :
    (∀ sp ∈ [({ job_id := "j1", job_type := .streaming,
                artifact_path := "/a.jar" } : JobSpec),
             { job_id := "bad id", job_type := .batch,
               artifact_path := "/b.jar" }], sp.job_id ≠ "") ∧
    (∃ results,
      (reconcileAll {} ⟨fun _ => {}, 100, 0⟩
        [({ job_id := "j1", job_type := .streaming,
            artifact_path := "/a.jar" } : JobSpec),
         { job_id := "bad id", job_type := .batch,
           artifact_path := "/b.jar" }] {}).1 = .ok results ∧
      results.length = 2 ∧
      List.Forall₂ (fun (sp : JobSpec) (r : ReconciliationResult) =>
        r.job_id = sp.job_id)
        [({ job_id := "j1", job_type := .streaming,
            artifact_path := "/a.jar" } : JobSpec),
         { job_id := "bad id", job_type := .batch,
           artifact_path := "/b.jar" }] results ∧
      List.Forall₂ (fun (p : JobSpec × Except TaskExn ReconciliationResult)
          (r : ReconciliationResult) =>
        ∀ e, p.2 = .error e →
          r.success = false ∧ r.error_code = some "RECONCILIATION_FAILED" ∧
            r.error_message = some e.str)
        ([({ job_id := "j1", job_type := .streaming,
             artifact_path := "/a.jar" } : JobSpec),
          { job_id := "bad id", job_type := .batch,
            artifact_path := "/b.jar" }].zip
          (runTasks {} (fun _ => {}) 100 0
            [({ job_id := "j1", job_type := .streaming,
                artifact_path := "/a.jar" } : JobSpec),
             { job_id := "bad id", job_type := .batch,
               artifact_path := "/b.jar" }] 0
            { ({} : EngineState) with statistics :=
              { ({} : EngineState).statistics with total_jobs :=
                  ([({ job_id := "j1", job_type := .streaming,
                       artifact_path := "/a.jar" } : JobSpec),
                    { job_id := "bad id", job_type := .batch,
                      artifact_path := "/b.jar" }] : List JobSpec).length } }).1)
        results) :=
  ⟨by decide,
    C2_reconcile_all_alignment {} ⟨fun _ => {}, 100, 0⟩
      [{ job_id := "j1", job_type := .streaming, artifact_path := "/a.jar" },
       { job_id := "bad id", job_type := .batch, artifact_path := "/b.jar" }]
      {} (by decide)⟩

theorem trimmed_getLast (l : List ExecutionRecord) (a : ExecutionRecord) :
    (if 100 < (l ++ [a]).length then
      (l ++ [a]).drop ((l ++ [a]).length - 100)
     else l ++ [a]).getLast? = some a := by
  by_cases h : 100 < (l ++ [a]).length
  · rw [if_pos h]
    have hle : (l ++ [a]).length - 100 ≤ l.length := by
      have hlen : (l ++ [a]).length = l.length + 1 := by simp
      rw [hlen]
      omega
    rw [List.drop_append_of_le_length hle]
    exact List.getLast?_concat _
  · rw [if_neg h]
    exact List.getLast?_concat _

/-- C8 (amended): every scheduled-job execution's record ends with status
success or failed; but on failure no retry is scheduled: the record keeps
`attempt_number = 1`, the job's schedule status simply returns to `pending`
(so the job next runs at its next cron fire), and the execution is entirely
independent of the spec's `max_retries` and `retry_delay` fields — two specs
differing only in those fields (same `job_id`) produce identical manager
states. -/
theorem C8_execute_facts (out : Except String Bool) (t1 t2 : Nat)
    (s1 s2 : ScheduledJobSpec) (st : Nat) (ms : ManagerState)
    (hid : s1.job_id = s2.job_id) :
    execute_scheduled_job out t1 t2 s1 st ms =
      execute_scheduled_job out t1 t2 s2 st ms ∧
    (∃ hist, Assoc.lookup
        (execute_scheduled_job out t1 t2 s1 st ms).execution_history s1.job_id =
          some hist ∧
      ∃ r, hist.getLast? = some r ∧
        (r.status = .success ∨ r.status = .failed) ∧
        r.attempt_number = 1 ∧
        (r.status = .failed ↔ out ≠ .ok true)) ∧
    Assoc.lookup (execute_scheduled_job out t1 t2 s1 st ms).job_schedules
      s1.job_id = some .pending := by
  refine ⟨?_, ?_, ?_⟩
  · unfold execute_scheduled_job
    rw [hid]
  · unfold execute_scheduled_job
    dsimp only
    refine ⟨_, by rw [Assoc.lookup_insert, if_pos rfl], ?_⟩
    refine ⟨_, trimmed_getLast _ _, ?_, ?_, ?_⟩
    · rcases out with e | b
      · right; rfl
      · cases b
        · right; rfl
        · left; rfl
    · rcases out with e | b
      · rfl
      · cases b <;> rfl
    · rcases out with e | b
      · simp
      · cases b <;> simp
  · unfold execute_scheduled_job
    dsimp only
    rw [Assoc.lookup_insert, if_pos rfl]

/-- C8 counterexample: a scheduled batch job with `retry_delay = 300` and
`max_retries = 3` fails at 2024-01-01 00:00:00 UTC.  The history holds one
failed record with `attempt_number = 1`, the schedule returns to `pending`,
no execution is active — and a scheduler tick at `now + retry_delay_s`
executes nothing (the state is unchanged, the next fire being the next cron
occurrence at 00:00 the following day), refuting the claimed retry at
`now + retry_delay_s`. -/
theorem C8_counterexample :
    let spec : ScheduledJobSpec :=
      { job_id := "batchjob", job_type := .batch, artifact_path := "/b.jar",
        cron_expression := "0 0 * * *", max_retries := 3, retry_delay := 300 }
    let ms0 : ManagerState :=
      { scheduled_jobs := [("batchjob", spec)],
        job_schedules := [("batchjob", .pending)],
        execution_history := [("batchjob", [])], active_executions := [] }
    let ms1 := execute_scheduled_job (.ok false) 1704067200 1704067200 spec
      1704067200 ms0
    (Assoc.lookup ms1.execution_history "batchjob" =
      some [{ execution_id := "batchjob_1704067200", job_id := "batchjob",
              scheduled_time := 1704067200,
              actual_start_time := some 1704067200,
              end_time := some 1704067200, status := .failed,
              attempt_number := 1, error_message := none, duration_ms := 0 }]) ∧
    Assoc.lookup ms1.job_schedules "batchjob" = some .pending ∧
    ms1.active_executions = [] ∧
    check_scheduled_jobs (fun _ => .ok false) (1704067200 + 300) ms1 = ms1 := by
  decide

/-- Witness for C8 (amended): two concrete specs for the same job differing
only in `max_retries` / `retry_delay` produce the same state, with the
failed record's facts. -/
theorem C8_execute_facts_witness :
    (({ job_id := "batchjob", job_type := .batch, artifact_path := "/b.jar",
        cron_expression := "0 0 * * *", max_retries := 3,
        retry_delay := 300 } : ScheduledJobSpec).job_id =
      ({ job_id := "batchjob", job_type := .batch, artifact_path := "/b.jar",
         cron_expression := "0 0 * * *", max_retries := 7,
         retry_delay := 999 } : ScheduledJobSpec).job_id) ∧
    (execute_scheduled_job (.ok false) 50 60
        { job_id := "batchjob", job_type := .batch, artifact_path := "/b.jar",
          cron_expression := "0 0 * * *", max_retries := 3, retry_delay := 300 }
        40 {} =
      execute_scheduled_job (.ok false) 50 60
        { job_id := "batchjob", job_type := .batch, artifact_path := "/b.jar",
          cron_expression := "0 0 * * *", max_retries := 7, retry_delay := 999 }
        40 {} ∧
     (∃ hist, Assoc.lookup
        (execute_scheduled_job (.ok false) 50 60
          { job_id := "batchjob", job_type := .batch, artifact_path := "/b.jar",
            cron_expression := "0 0 * * *", max_retries := 3, retry_delay := 300 }
          40 {}).execution_history "batchjob" = some hist ∧
      ∃ r, hist.getLast? = some r ∧
        (r.status = .success ∨ r.status = .failed) ∧
        r.attempt_number = 1 ∧
        (r.status = .failed ↔ (.ok false : Except String Bool) ≠ .ok true)) ∧
     Assoc.lookup
        (execute_scheduled_job (.ok false) 50 60
          { job_id := "batchjob", job_type := .batch, artifact_path := "/b.jar",
            cron_expression := "0 0 * * *", max_retries := 3, retry_delay := 300 }
          40 {}).job_schedules "batchjob" = some .pending) :=
  ⟨rfl,
    C8_execute_facts (.ok false) 50 60
      { job_id := "batchjob", job_type := .batch, artifact_path := "/b.jar",
        cron_expression := "0 0 * * *", max_retries := 3, retry_delay := 300 }
      { job_id := "batchjob", job_type := .batch, artifact_path := "/b.jar",
        cron_expression := "0 0 * * *", max_retries := 7, retry_delay := 999 }
      40 {} rfl⟩

theorem statsCounterLE_refl (s : ReconciliationStatistics) : statsCounterLE s s :=
  ⟨le_refl _, le_refl _, le_refl _, fun _ => le_refl _, fun _ => le_refl _⟩

theorem statsCounterLE_trans {s1 s2 s3 : ReconciliationStatistics}
    (h12 : statsCounterLE s1 s2) (h23 : statsCounterLE s2 s3) :
    statsCounterLE s1 s3 :=
  ⟨le_trans h12.1 h23.1, le_trans h12.2.1 h23.2.1,
   le_trans h12.2.2.1 h23.2.2.1,
   fun a => le_trans (h12.2.2.2.1 a) (h23.2.2.2.1 a),
   fun c => le_trans (h12.2.2.2.2 c) (h23.2.2.2.2 c)⟩

theorem Assoc.count_bump_le (m : List (String × Nat)) (k a : String) :
    Assoc.count m a ≤ Assoc.count (Assoc.bump m k) a := by
  unfold Assoc.bump Assoc.count
  rw [Assoc.lookup_insert]
  by_cases h : a = k
  · subst h
    simp
  · rw [if_neg h]

theorem statsCounterLE_foldl
    (f : ReconciliationStatistics → ReconciliationResult → ReconciliationStatistics)
    (hf : ∀ st r, statsCounterLE st (f st r)) :
    ∀ (results : List ReconciliationResult) (st : ReconciliationStatistics),
      statsCounterLE st (results.foldl f st)
  | [], st => statsCounterLE_refl st
  | r :: rest, st =>
      statsCounterLE_trans (hf st r) (statsCounterLE_foldl f hf rest (f st r))

theorem update_statistics_mono (stats : ReconciliationStatistics)
    (results : List ReconciliationResult) :
    statsCounterLE stats (update_statistics stats results) := by
  unfold update_statistics
  dsimp only
  refine statsCounterLE_trans ?_ (statsCounterLE_foldl _ ?_ _ _)
  · refine statsCounterLE_trans ?_ (statsCounterLE_foldl _ ?_ _ _)
    · split
      · exact ⟨Nat.le_add_right _ _, Nat.le_add_right _ _, le_refl _,
          fun _ => le_refl _, fun _ => le_refl _⟩
      · split
        · exact ⟨Nat.le_add_right _ _, Nat.le_add_right _ _, le_refl _,
            fun _ => le_refl _, fun _ => le_refl _⟩
        · exact ⟨Nat.le_add_right _ _, Nat.le_add_right _ _, le_refl _,
            fun _ => le_refl _, fun _ => le_refl _⟩
    · intro st r
      exact ⟨le_refl _, le_refl _, le_refl _,
        fun a => Assoc.count_bump_le _ _ _, fun _ => le_refl _⟩
  · intro st r
    cases r.error_code with
    | none => exact statsCounterLE_refl st
    | some c =>
        exact ⟨le_refl _, le_refl _, le_refl _,
          fun _ => le_refl _, fun _ => Assoc.count_bump_le _ _ _⟩

theorem reconcileJob_stats_mono (cfg : ReconcilerConfig) (env : ClientEnv)
    (now dur : Nat) (spec : JobSpec) (s : EngineState) :
    statsCounterLE s.statistics
      (reconcileJob cfg env now dur spec s).2.1.statistics := by
  unfold reconcileJob
  by_cases hv : is_valid_job_id spec.job_id = true
  · rw [if_pos hv]
    rcases hc : check_concurrent_reconciliation cfg s.active_reconciliations
        spec.job_id now with a | a1
    · simp only [hc]
      exact ⟨le_refl _, le_refl _, Nat.le_succ _,
        fun _ => le_refl _, fun _ => le_refl _⟩
    · simp only [hc]
      rcases hst : (getJobStatusProtected env now s.breaker spec.job_id).1 with e | cs
      · simp only [hst]
        exact statsCounterLE_refl _
      · simp only [hst]
        rcases hex : (executeReconciliationAction env spec
            (determine_reconciliation_action s.tracker spec cs)
            s.tracker s.state_store dur).1 with e | result
        · simp only [hex]
          exact statsCounterLE_refl _
        · simp only [hex]
          exact statsCounterLE_refl _
  · rw [if_neg hv]
    exact statsCounterLE_refl _

theorem runTasks_stats_mono (cfg : ReconcilerConfig) (envf : Nat → ClientEnv)
    (now dur : Nat) :
    ∀ (specs : List JobSpec) (i : Nat) (s : EngineState),
      statsCounterLE s.statistics
        (runTasks cfg envf now dur specs i s).2.1.statistics
  | [], _, s => statsCounterLE_refl s.statistics
  | spec :: rest, i, s =>
      statsCounterLE_trans
        (reconcileJob_stats_mono cfg (envf i) now dur spec s)
        (runTasks_stats_mono cfg envf now dur rest (i + 1) _)

theorem reconcileAll_counters_mono (cfg : ReconcilerConfig) (be : BatchEnv)
    (specs : List JobSpec) (s : EngineState) :
    statsCounterLE s.statistics
      (reconcileAll cfg be specs s).2.1.statistics := by
  unfold reconcileAll
  by_cases he : specs.isEmpty = true
  · rw [if_pos he]
    exact statsCounterLE_refl _
  · rw [if_neg he]
    dsimp only
    have h1 : statsCounterLE s.statistics
        ({ s with statistics :=
          { s.statistics with total_jobs := specs.length } } : EngineState).statistics :=
      ⟨le_refl _, le_refl _, le_refl _, fun _ => le_refl _, fun _ => le_refl _⟩
    rcases hp : processResults (specs.zip (runTasks cfg be.envf be.now be.dur specs 0
        { s with statistics :=
          { s.statistics with total_jobs := specs.length } }).1) with m | processed
    · simp only [hp]
      exact statsCounterLE_trans h1 (runTasks_stats_mono cfg be.envf be.now be.dur specs 0 _)
    · simp only [hp]
      exact statsCounterLE_trans h1
        (statsCounterLE_trans
          (runTasks_stats_mono cfg be.envf be.now be.dur specs 0 _)
          (update_statistics_mono _ _))

/-- C9 (amended): across any sequence of `reconcile_all` calls on one engine
instance, every statistics counter except `total_jobs` — successful and
failed reconciliation counts, concurrent-attempt count, each per-action
count and each per-error-code count — is monotonically non-decreasing;
`total_jobs` is excluded because each call overwrites it with the batch
size. -/
theorem C9_amended (cfg : ReconcilerConfig) :
    ∀ (batches : List (BatchEnv × List JobSpec)) (s : EngineState),
      statsCounterLE s.statistics (runBatches cfg batches s).statistics
  | [], s => statsCounterLE_refl s.statistics
  | (be, specs) :: rest, s =>
      statsCounterLE_trans
        (reconcileAll_counters_mono cfg be specs s)
        (C9_amended cfg rest _)

/-- C9 counterexample: on one engine, a batch of two jobs followed by a batch
of one job leaves `total_jobs = 1` after the second call, strictly below its
value `2` after the first — `total_jobs` is overwritten with `len(job_specs)`
on each call, not accumulated, so it is not monotonically non-decreasing. -/
theorem C9_counterexample :
    (runBatches {} [(⟨fun _ => {}, 100, 0⟩,
        [{ job_id := "joba", job_type := .streaming, artifact_path := "/a.jar" },
         { job_id := "jobb", job_type := .streaming, artifact_path := "/b.jar" }])]
      {}).statistics.total_jobs = 2 ∧
    (runBatches {} [(⟨fun _ => {}, 100, 0⟩,
        [{ job_id := "joba", job_type := .streaming, artifact_path := "/a.jar" },
         { job_id := "jobb", job_type := .streaming, artifact_path := "/b.jar" }]),
       (⟨fun _ => {}, 100, 0⟩,
        [{ job_id := "joba", job_type := .streaming, artifact_path := "/a.jar" }])]
      {}).statistics.total_jobs = 1 := by
  constructor
  · rfl
  · rfl
